import Mathlib

/-!
# stsh: job control core of a small shell

A shallow embedding of `stsh.cc`.  The shell process is a value of type `Shell`
(job list, SIGCHLD mask, open descriptors, log of the calls it has made); every
function of `stsh.cc` becomes a function on that value.  What the operating
system answers (descriptors returned by `open` and `pipe2`, pids returned by
`fork`, the result of `tcsetpgrp`, the wait statuses delivered while the shell
is suspended) is supplied by an `OS` record, so every definition is executable.
Text written to the console is not modelled.

The classes `STSHJobList`, `STSHJob`, `STSHProcess` and the helper `parseNumber`
are declared in headers that are not part of `stsh.cc`; they are modelled from
the specification (job list, job, process) or taken as a parameter
(`parseNumber`).
-/

namespace Stsh

/-! ## Data model -/

/-- Process ids and process-group ids (`pid_t`, a signed integer). -/
abbrev Pid := Int

/-- File descriptors as the shell sees them; `-1` is the failure value of `open`. -/
abbrev Fd := Int

/-- The state of one process, `STSHProcessState`. -/
inductive STSHProcessState where
  | kRunning
  | kStopped
  | kTerminated
  deriving DecidableEq

/-- The state of one job, `STSHJobState`. -/
inductive STSHJobState where
  | kForeground
  | kBackground
  deriving DecidableEq

/-- The signals the shell sends with `kill`. -/
inductive Signal where
  | SIGINT
  | SIGTSTP
  | SIGCONT
  deriving DecidableEq

/-- One command of a pipeline: the executable and its argument tokens.  The
null-terminated array `tokens` is the list of its non-null entries, so
`tokens[i] == NULL` reads `tokens.length ≤ i`. -/
structure Command where
  command : String
  tokens : List String
  deriving DecidableEq

/-- A parsed pipeline, as handed over by the parser. -/
structure Pipeline where
  commands : List Command
  input : String
  output : String
  background : Bool
  deriving DecidableEq

/-- Modelled from the spec: class STSHProcess (stsh-process.h is not part of
the sources).  A pid, the originating command, and a state; a process starts
out Running. -/
structure STSHProcess where
  pid : Pid
  command : Command
  state : STSHProcessState
  deriving DecidableEq

/-- Modelled from the spec: class STSHJob (stsh-job.h is not part of the
sources).  Job number, state, process-group id (0 while the job is empty) and
the processes in pipeline stage order. -/
structure STSHJob where
  num : Nat
  state : STSHJobState
  groupID : Pid
  processes : List STSHProcess
  deriving DecidableEq

/-- Modelled from the spec: class STSHJobList (stsh-job-list.h is not part of
the sources).  The registry of all live jobs. -/
abbrev STSHJobList := List STSHJob

namespace STSHJob

/-- Modelled from the spec: STSHJob::containsProcess, whether some process of
the job has this pid. -/
def containsProcess (job : STSHJob) (pid : Pid) : Bool :=
  job.processes.any (fun q => q.pid == pid)

/-- Modelled from the spec: STSHJob::getProcess, the process of the job with
this pid, when there is one. -/
def getProcess (job : STSHJob) (pid : Pid) : Option STSHProcess :=
  job.processes.find? (fun q => q.pid == pid)

/-- Modelled from the spec: STSHJob::addProcess.  The process is appended to
the job; the group id is fixed by the first process and never changes. -/
def addProcess (job : STSHJob) (q : STSHProcess) : STSHJob :=
  { job with
    groupID := if job.groupID = 0 then q.pid else job.groupID
    processes := job.processes ++ [q] }

/-- The effect of `getProcess(pid).setState(st)` on a list of processes: the
first process with this pid gets the new state. -/
def setStateIn (pid : Pid) (st : STSHProcessState) : List STSHProcess → List STSHProcess
  | [] => []
  | q :: qs =>
    if q.pid == pid then { q with state := st } :: qs else q :: setStateIn pid st qs

/-- The effect of `job.getProcess(pid).setState(st)` on the job. -/
def setProcessState (job : STSHJob) (pid : Pid) (st : STSHProcessState) : STSHJob :=
  { job with processes := setStateIn pid st job.processes }

end STSHJob

/-- Modelled from the spec: STSHJobList::containsJob. -/
def containsJob (jl : STSHJobList) (num : Nat) : Bool :=
  jl.any (fun j => j.num == num)

/-- Modelled from the spec: STSHJobList::getJob, lookup by job number. -/
def getJob (jl : STSHJobList) (num : Nat) : Option STSHJob :=
  jl.find? (fun j => j.num == num)

/-- Modelled from the spec: STSHJobList::containsProcess, reverse lookup by
pid across all jobs. -/
def containsProcess (jl : STSHJobList) (pid : Pid) : Bool :=
  jl.any (fun j => j.containsProcess pid)

/-- Modelled from the spec: STSHJobList::getJobWithProcess, the job owning
this pid, when there is one. -/
def getJobWithProcess (jl : STSHJobList) (pid : Pid) : Option STSHJob :=
  jl.find? (fun j => j.containsProcess pid)

/-- Modelled from the spec: STSHJobList::hasForegroundJob. -/
def hasForegroundJob (jl : STSHJobList) : Bool :=
  jl.any (fun j => j.state == STSHJobState.kForeground)

/-- Modelled from the spec: STSHJobList::getForegroundJob. -/
def getForegroundJob (jl : STSHJobList) : Option STSHJob :=
  jl.find? (fun j => j.state == STSHJobState.kForeground)

/-- The number of jobs whose state is Foreground. -/
def foregroundCount (jl : STSHJobList) : Nat :=
  jl.countP (fun j => j.state == STSHJobState.kForeground)

/-- The smallest number in `c, c+1, ...` that no job uses, looking at most
`fuel` numbers ahead. -/
def firstFreeFrom (jl : STSHJobList) : Nat → Nat → Nat
  | 0, c => c
  | fuel + 1, c => if containsJob jl c then firstFreeFrom jl fuel (c + 1) else c

/-- Modelled from the spec: the job number addJob hands out, the smallest
positive integer not in use. -/
def nextJobNum (jl : STSHJobList) : Nat :=
  firstFreeFrom jl jl.length 1

/-- Modelled from the spec: STSHJobList::addJob.  A new empty job with the
lowest free number and the given state; the result is the list and the number
of the new job (the reference the C++ code holds). -/
def addJob (jl : STSHJobList) (state : STSHJobState) : STSHJobList × Nat :=
  (jl ++ [{ num := nextJobNum jl, state := state, groupID := 0, processes := [] }],
   nextJobNum jl)

/-- Apply a change to the job with this number (what a mutation through a
`STSHJob&` reference does to the list). -/
def modifyJob (jl : STSHJobList) (num : Nat) (f : STSHJob → STSHJob) : STSHJobList :=
  jl.map (fun j => if j.num == num then f j else j)

/-- Modelled from the spec: STSHJobList::synchronize.  A job all of whose
processes are Terminated is removed; a Foreground job that is still alive but
has no Running process is handed back to the background (section 4.3: the
foreground wait relies on synchronize to have cleared or backgrounded the
job). -/
def synchronize (jl : STSHJobList) (num : Nat) : STSHJobList :=
  match getJob jl num with
  | none => jl
  | some job =>
    if job.processes.all (fun q => q.state == STSHProcessState.kTerminated) then
      jl.filter (fun j => !(j.num == num))
    else if job.state == STSHJobState.kForeground
        && !(job.processes.any (fun q => q.state == STSHProcessState.kRunning)) then
      modifyJob jl num (fun j => { j with state := STSHJobState.kBackground })
    else jl

/-- The state recorded for a pid, read the way the builtins read it:
`joblist.getJobWithProcess(pid).getProcess(pid).getState()`. -/
def processState (jl : STSHJobList) (pid : Pid) : Option STSHProcessState :=
  match getJobWithProcess jl pid with
  | none => none
  | some job => (job.getProcess pid).map (fun q => q.state)

/-- The effect of `joblist.getJobWithProcess(pid).getProcess(pid).setState(st)`:
in the first job that owns the pid, the first process with the pid changes. -/
def setProcessState (pid : Pid) (st : STSHProcessState) : STSHJobList → STSHJobList
  | [] => []
  | j :: js =>
    if j.containsProcess pid then j.setProcessState pid st :: js
    else j :: setProcessState pid st js

/-! ## The shell process and the operating system -/

/-- What a forked child does before it becomes the target program. -/
inductive ChildAction where
  | dup2 (src dst : Fd)
  | unblockSIGCHLD
  | exec (c : Command)
  deriving DecidableEq

/-- The calls the shell process makes, in the order it makes them. -/
inductive Event where
  | blockSIGCHLD
  | unblockSIGCHLD
  | addJob (state : STSHJobState) (num : Nat)
  | openFile (path : String) (result : Fd)
  | pipe2 (readEnd writeEnd : Fd)
  | fork (pid : Pid) (child : List ChildAction)
  | setpgid (pid grp : Pid)
  | addProcess (num : Nat) (pid : Pid) (c : Command)
  | close (fd : Fd)
  | kill (pid : Pid) (sig : Signal)
  | tcsetpgrp (grp : Pid)
  | sigsuspend
  deriving DecidableEq

/-- The result of a `tcsetpgrp` call: success, failure with `ENOTTY`, or
failure with any other error. -/
inductive TcResult where
  | ok
  | enotty
  | failed
  deriving DecidableEq

/-- One signal delivered to the shell: SIGCHLD together with the
`(pid, status)` pairs that the `waitpid` loop of the handler will read, or
SIGINT, or SIGTSTP. -/
inductive Delivery where
  | sigchld (reports : List (Pid × Nat))
  | sigint
  | sigtstp
  deriving DecidableEq

/-- The answers of the operating system to one command line. -/
structure OS where
  /-- The descriptor `open` returns for the input file, `none` when it fails. -/
  openInput : Option Nat
  /-- The descriptor `open` returns for the output file, `none` when it fails. -/
  openOutput : Option Nat
  /-- The two descriptors the i-th `pipe2` call returns. -/
  pipe2 : Nat → Nat × Nat
  /-- What the i-th `fork` returns in the shell process. -/
  fork : Nat → Pid
  /-- The result of handing the terminal to the job. -/
  tcsetpgrpJob : TcResult
  /-- The result of taking the terminal back. -/
  tcsetpgrpShell : TcResult
  /-- The pid of the shell, `getpid()`. -/
  shellPid : Pid
  /-- The signals that arrive while the shell is suspended in `sigsuspend`. -/
  deliveries : List Delivery

/-- The shell process: the global `joblist`, whether SIGCHLD is blocked, the
descriptors it holds open, and the calls made so far. -/
structure Shell where
  joblist : STSHJobList
  sigchldBlocked : Bool
  openFds : List Fd
  log : List Event
  deriving DecidableEq

/-- How a function of the shell ends: it returns, it throws an
`STSHException`, a lookup of the job-list classes that the code does not guard
fails, the shell stays suspended in `sigsuspend` because no further signal
arrives, or the process exits. -/
inductive Outcome where
  | returned
  | threw (msg : String)
  | lookupFailed
  | suspended
  | exited
  deriving DecidableEq

/-- A shell that has just started. -/
def Shell.start : Shell :=
  { joblist := [], sigchldBlocked := false, openFds := [], log := [] }

/-- Record one call. -/
def Shell.emit (sh : Shell) (e : Event) : Shell :=
  { sh with log := sh.log ++ [e] }

/-- The source's `blockSIGCHLD`. -/
def blockSIGCHLD (sh : Shell) : Shell :=
  { sh with sigchldBlocked := true, log := sh.log ++ [Event.blockSIGCHLD] }

/-- The source's `unblockSIGCHLD`. -/
def unblockSIGCHLD (sh : Shell) : Shell :=
  { sh with sigchldBlocked := false, log := sh.log ++ [Event.unblockSIGCHLD] }

/-- The call `kill(pid, sig)`. -/
def kill (sh : Shell) (pid : Pid) (sig : Signal) : Shell :=
  sh.emit (Event.kill pid sig)

/-! ## Wait statuses

The status that `waitpid` stores is an `int` whose value is never negative; it
is a natural number here, and `status & 0x7f` reads `status % 128`. -/

/-- The test `WIFEXITED(status)` of sys/wait.h, as glibc defines it:
`(status & 0x7f) == 0`. -/
def WIFEXITED (status : Nat) : Bool :=
  status % 128 == 0

/-- The test `WIFSIGNALED(status)` of sys/wait.h, as glibc defines it:
`((signed char) ((status & 0x7f) + 1) >> 1) > 0`. -/
def WIFSIGNALED (status : Nat) : Bool :=
  let t : Int := (status % 128 : Nat) + 1
  let c : Int := if 128 ≤ t then t - 256 else t
  decide (0 < c / 2)

/-- The test `WIFSTOPPED(status)` of sys/wait.h, as glibc defines it:
`(status & 0xff) == 0x7f`. -/
def WIFSTOPPED (status : Nat) : Bool :=
  status % 256 == 127

/-- The test `WIFCONTINUED(status)` of sys/wait.h, as glibc defines it:
`status == 0xffff`. -/
def WIFCONTINUED (status : Nat) : Bool :=
  status == 65535

/-! ## Process control -/

/-- The source's `reapProcess`: the `waitpid` loop of the SIGCHLD handler.
`reports` are the `(pid, status)` pairs `waitpid` returns before it returns a
value `<= 0`. -/
def reapProcess : List (Pid × Nat) → STSHJobList → STSHJobList × Outcome
  | [], jl => (jl, Outcome.returned)
  | (pid, status) :: rest, jl =>
    match getJobWithProcess jl pid with
    | none => (jl, Outcome.lookupFailed)
    | some job =>
      if WIFEXITED status || WIFSIGNALED status then
        reapProcess rest
          (synchronize (setProcessState pid STSHProcessState.kTerminated jl) job.num)
      else if WIFSTOPPED status then
        reapProcess rest
          (synchronize (setProcessState pid STSHProcessState.kStopped jl) job.num)
      else if WIFCONTINUED status then
        reapProcess rest
          (synchronize (setProcessState pid STSHProcessState.kRunning jl) job.num)
      else (jl, Outcome.threw "Unexpected signal detected.")

/-- The source's `stopForegroundJob`, the SIGTSTP handler. -/
def stopForegroundJob (sh : Shell) : Shell :=
  if !hasForegroundJob sh.joblist then sh
  else match getForegroundJob sh.joblist with
    | none => sh
    | some fgJob => kill sh (-1 * fgJob.groupID) Signal.SIGTSTP

/-- The source's `killForegroundJob`, the SIGINT handler. -/
def killForegroundJob (sh : Shell) : Shell :=
  if !hasForegroundJob sh.joblist then sh
  else match getForegroundJob sh.joblist with
    | none => sh
    | some fgJob => kill sh (-1 * fgJob.groupID) Signal.SIGINT

/-- Run the handler that `installSignalHandlers` installed for a delivered
signal. -/
def deliver (d : Delivery) (sh : Shell) : Shell × Outcome :=
  match d with
  | Delivery.sigchld reports =>
    let r := reapProcess reports sh.joblist
    ({ sh with joblist := r.1 }, r.2)
  | Delivery.sigint => (killForegroundJob sh, Outcome.returned)
  | Delivery.sigtstp => (stopForegroundJob sh, Outcome.returned)

/-- The loop `while (joblist.hasForegroundJob()) sigsuspend(&empty);` of
`waitForForegroundJob`.  Each `sigsuspend` returns after the handler of the
next delivered signal has run. -/
def waitLoop : List Delivery → Shell → Shell × Outcome
  | [], sh =>
    if hasForegroundJob sh.joblist then (sh.emit Event.sigsuspend, Outcome.suspended)
    else (sh, Outcome.returned)
  | d :: ds, sh =>
    if hasForegroundJob sh.joblist then
      match deliver d (sh.emit Event.sigsuspend) with
      | (sh1, Outcome.returned) => waitLoop ds sh1
      | (sh1, o) => (sh1, o)
    else (sh, Outcome.returned)

/-- The source's `waitForForegroundJob`. -/
def waitForForegroundJob (grouppid : Pid) (os : OS) (sh : Shell) : Shell × Outcome :=
  let sh1 := sh.emit (Event.tcsetpgrp grouppid)
  if os.tcsetpgrpJob = TcResult.failed then
    (sh1, Outcome.threw "Error while calling tcsetpgrp.")
  else
    match waitLoop os.deliveries sh1 with
    | (sh2, Outcome.returned) =>
      let sh3 := sh2.emit (Event.tcsetpgrp os.shellPid)
      if os.tcsetpgrpShell = TcResult.failed then
        (sh3, Outcome.threw "Error while calling tcsetpgrp.")
      else (unblockSIGCHLD sh3, Outcome.returned)
    | (sh2, o) => (sh2, o)

/-! ## New job created -/

/-- The descriptor number of standard input. -/
def STDIN_FILENO : Fd := 0

/-- The descriptor number of standard output. -/
def STDOUT_FILENO : Fd := 1

/-- The body of `if (pid == 0) { ... }` in `createJob`: what the child forked
for stage `i` of `n` does.  `input` and `output` are the descriptors of the
redirection files or `-1`; `runChildProcess` replaces the process image (or
exits), so the child never returns to the loop. -/
def childActions (i n : Nat) (input output : Fd) (pipes : List (Fd × Fd))
    (c : Command) : List ChildAction :=
  (if i == 0 && input != -1 then [ChildAction.dup2 input STDIN_FILENO]
   else if i ≥ 1 then [ChildAction.dup2 (pipes.getD (i - 1) (-1, -1)).1 STDIN_FILENO]
   else if i < n - 1 then [ChildAction.dup2 (pipes.getD i (-1, -1)).2 STDOUT_FILENO]
   else if i == n - 1 && output != -1 then [ChildAction.dup2 output STDOUT_FILENO]
   else [])
  ++ [ChildAction.unblockSIGCHLD, ChildAction.exec c]

/-- The line `if (!p.input.empty()) input = open(p.input.c_str(), ...)`. -/
def openInput (p : Pipeline) (os : OS) (sh : Shell) : Shell × Fd :=
  if p.input = "" then (sh, -1)
  else match os.openInput with
    | some fd =>
      ({ sh with openFds := sh.openFds ++ [(fd : Int)],
                 log := sh.log ++ [Event.openFile p.input fd] }, fd)
    | none => (sh.emit (Event.openFile p.input (-1)), -1)

/-- The line `if (!p.output.empty()) output = open(p.output.c_str(), ...)`. -/
def openOutput (p : Pipeline) (os : OS) (sh : Shell) : Shell × Fd :=
  if p.output = "" then (sh, -1)
  else match os.openOutput with
    | some fd =>
      ({ sh with openFds := sh.openFds ++ [(fd : Int)],
                 log := sh.log ++ [Event.openFile p.output fd] }, fd)
    | none => (sh.emit (Event.openFile p.output (-1)), -1)

/-- The first loop of `createJob`: `k` more calls of `pipe2`, the next one
being call number `i`; every pair of descriptors is pushed onto `pipes`.  The
source does not look at the result of `pipe2`; the call is taken to succeed. -/
def makePipes (os : OS) : Nat → Nat → List (Fd × Fd) → Shell → Shell × List (Fd × Fd)
  | 0, _, pipes, sh => (sh, pipes)
  | k + 1, i, pipes, sh =>
    let fds : Fd × Fd := (((os.pipe2 i).1 : Int), ((os.pipe2 i).2 : Int))
    makePipes os k (i + 1) (pipes ++ [fds])
      { sh with openFds := sh.openFds ++ [fds.1, fds.2],
                log := sh.log ++ [Event.pipe2 fds.1 fds.2] }

/-- The second loop of `createJob`, seen from the shell process: for every
remaining stage (the next one has index `i`) fork, put the child into the
group of the first child, and add the process to the job. -/
def forkStages (os : OS) (n : Nat) (input output : Fd) (pipes : List (Fd × Fd))
    (jobNum : Nat) : List Command → Nat → Pid → Shell → Shell × Pid
  | [], _, grouppid, sh => (sh, grouppid)
  | c :: cs, i, grouppid, sh =>
    let pid := os.fork i
    let grouppid1 := if i == 0 then pid else grouppid
    let process : STSHProcess := { pid := pid, command := c, state := STSHProcessState.kRunning }
    forkStages os n input output pipes jobNum cs (i + 1) grouppid1
      { sh with
        joblist := modifyJob sh.joblist jobNum (fun j => j.addProcess process),
        log := sh.log ++ [Event.fork pid (childActions i n input output pipes c),
                          Event.setpgid pid grouppid1,
                          Event.addProcess jobNum pid c] }

/-- The call `close(fd)`. -/
def close (sh : Shell) (fd : Fd) : Shell :=
  { sh with openFds := sh.openFds.erase fd, log := sh.log ++ [Event.close fd] }

/-- The third loop of `createJob`: both ends of every pipe are closed. -/
def closePipes : List (Fd × Fd) → Shell → Shell
  | [], sh => sh
  | fds :: rest, sh => closePipes rest (close (close sh fds.1) fds.2)

/-- The line `STSHJobState state = (p.background) ? kBackground : kForeground;`. -/
def launchState (p : Pipeline) : STSHJobState :=
  if p.background then STSHJobState.kBackground else STSHJobState.kForeground

/-- Everything `createJob` has done when it reaches `if (state == kForeground)`:
the shell, the number of the new job and `grouppid`. -/
def createJobSetup (p : Pipeline) (os : OS) (sh : Shell) : Shell × Nat × Pid :=
  let sh1 := blockSIGCHLD sh
  let state := launchState p
  let added := addJob sh1.joblist state
  let sh2 : Shell :=
    { sh1 with joblist := added.1, log := sh1.log ++ [Event.addJob state added.2] }
  let n := p.commands.length
  let inp := openInput p os sh2
  let out := openOutput p os inp.1
  let piped := makePipes os (n - 1) 0 [] out.1
  let forked := forkStages os n inp.2 out.2 piped.2 added.2 p.commands 0 0 piped.1
  (closePipes piped.2 forked.1, added.2, forked.2)

/-- The source's `createJob`. -/
def createJob (p : Pipeline) (os : OS) (sh : Shell) : Shell × Outcome :=
  let setup := createJobSetup p os sh
  if launchState p = STSHJobState.kForeground then waitForForegroundJob setup.2.2 os setup.1
  else (unblockSIGCHLD setup.1, Outcome.returned)

/-! ## Built-in commands -/

/-- The conversion `(pid_t)` of a `size_t` value: reduction modulo 2^32 into
the signed 32-bit range. -/
def toPidT (v : Nat) : Pid :=
  if v % 4294967296 < 2147483648 then ((v % 4294967296 : Nat) : Int)
  else ((v % 4294967296 : Nat) : Int) - 4294967296

/-- The source's `findProcess`.  `parseNumber` (stsh-parse-utils.h, not part
of the sources) is a parameter: it yields the number a token denotes, and
`none` stands for its throwing `STSHException(usage)`. -/
def findProcess (parseNumber : Option String → Option Nat) (jl : STSHJobList)
    (c : Command) (usage : String) : Except String Pid :=
  match c.tokens with
  | [] => Except.error usage
  | _ :: _ :: _ :: _ => Except.error usage
  | [t0] =>
    match parseNumber (some t0) with
    | none => Except.error usage
    | some v =>
      let pid := toPidT v
      if !containsProcess jl pid then
        Except.error ("No process with pid " ++ toString pid ++ ".")
      else Except.ok pid
  | [t0, t1] =>
    match parseNumber (some t0) with
    | none => Except.error usage
    | some jobNum =>
      match getJob jl jobNum with
      | none => Except.error ("No job with id of " ++ toString jobNum ++ ".")
      | some job =>
        match parseNumber (some t1) with
        | none => Except.error usage
        | some processIndex =>
          match job.processes.get? processIndex with
          | none =>
            Except.error ("Job " ++ toString jobNum ++ " doesn't have a process at index "
              ++ toString processIndex ++ ".")
          | some q => Except.ok q.pid

/-- The source's `bringJobForeground`. -/
def bringJobForeground (parseNumber : Option String → Option Nat) (c : Command)
    (os : OS) (sh : Shell) : Shell × Outcome :=
  if 2 ≤ c.tokens.length then (sh, Outcome.threw "Usage: fg <jobid>.")
  else match parseNumber (c.tokens.get? 0) with
    | none => (sh, Outcome.threw "Usage: fg <jobid>.")
    | some jobNum =>
      match getJob sh.joblist jobNum with
      | none => (sh, Outcome.threw ": No such job.")
      | some job =>
        let groupID := job.groupID
        if groupID = 0 then (sh, Outcome.threw "No process running in this job.")
        else if job.state = STSHJobState.kBackground then
          let sh1 := blockSIGCHLD sh
          let jl := modifyJob sh1.joblist jobNum
            (fun j => { j with state := STSHJobState.kForeground })
          let sh2 : Shell := { sh1 with joblist := jl }
          waitForForegroundJob groupID os (kill sh2 (-1 * groupID) Signal.SIGCONT)
        else (sh, Outcome.returned)

/-- The source's `continueJobBackground`. -/
def continueJobBackground (parseNumber : Option String → Option Nat) (c : Command)
    (sh : Shell) : Shell × Outcome :=
  if 2 ≤ c.tokens.length then (sh, Outcome.threw "Usage: bg <jobid>.")
  else match parseNumber (c.tokens.get? 0) with
    | none => (sh, Outcome.threw "Usage: bg <jobid>.")
    | some jobNum =>
      match getJob sh.joblist jobNum with
      | none => (sh, Outcome.threw ": No such job.")
      | some job =>
        if job.state = STSHJobState.kBackground then
          match job.getProcess job.groupID with
          | none => (sh, Outcome.lookupFailed)
          | some q =>
            if q.state = STSHProcessState.kStopped then
              (kill sh (-1 * job.groupID) Signal.SIGCONT, Outcome.returned)
            else (sh, Outcome.returned)
        else (sh, Outcome.returned)

/-- The source's `slayProcess`. -/
def slayProcess (parseNumber : Option String → Option Nat) (c : Command)
    (sh : Shell) : Shell × Outcome :=
  match findProcess parseNumber sh.joblist c "Usgae: slay <jobid> <index> | <pid>." with
  | Except.error msg => (sh, Outcome.threw msg)
  | Except.ok pid => (kill sh pid Signal.SIGINT, Outcome.returned)

/-- The source's `haltProcess`. -/
def haltProcess (parseNumber : Option String → Option Nat) (c : Command)
    (sh : Shell) : Shell × Outcome :=
  match findProcess parseNumber sh.joblist c "Usgae: halt <jobid> <index> | <pid>." with
  | Except.error msg => (sh, Outcome.threw msg)
  | Except.ok pid =>
    match processState sh.joblist pid with
    | none => (sh, Outcome.lookupFailed)
    | some st =>
      if st ≠ STSHProcessState.kStopped then (kill sh pid Signal.SIGTSTP, Outcome.returned)
      else (sh, Outcome.returned)

/-- The source's `continueProcess`. -/
def continueProcess (parseNumber : Option String → Option Nat) (c : Command)
    (sh : Shell) : Shell × Outcome :=
  match findProcess parseNumber sh.joblist c "Usage: cont <jobid> <index> | <pid>." with
  | Except.error msg => (sh, Outcome.threw msg)
  | Except.ok pid =>
    match processState sh.joblist pid with
    | none => (sh, Outcome.lookupFailed)
    | some st =>
      if st ≠ STSHProcessState.kRunning then (kill sh pid Signal.SIGCONT, Outcome.returned)
      else (sh, Outcome.returned)

/-- The source's `handleBuiltin`: `none` when the leading command is not a
builtin (the function returns false), otherwise what the builtin does. -/
def handleBuiltin (parseNumber : Option String → Option Nat) (p : Pipeline) (os : OS)
    (sh : Shell) : Option (Shell × Outcome) :=
  match p.commands with
  | [] => none
  | c :: _ =>
    if c.command = "quit" ∨ c.command = "exit" then some (sh, Outcome.exited)
    else if c.command = "fg" then some (bringJobForeground parseNumber c os sh)
    else if c.command = "bg" then some (continueJobBackground parseNumber c sh)
    else if c.command = "slay" then some (slayProcess parseNumber c sh)
    else if c.command = "halt" then some (haltProcess parseNumber c sh)
    else if c.command = "cont" then some (continueProcess parseNumber c sh)
    else if c.command = "jobs" then some (sh, Outcome.returned)
    else none

/-- One thing that happens to the shell while `main` runs: a command line is
read and evaluated, or a signal arrives while the shell sits at the prompt. -/
inductive Step where
  | line (p : Pipeline) (os : OS)
  | signal (d : Delivery)

/-- One round of the loop of `main`.  An exception is caught by the loop,
which goes on with the state the exception left behind; a SIGCHLD that arrives
while the signal is blocked stays pending. -/
def mainStep (parseNumber : Option String → Option Nat) (st : Step) (sh : Shell) :
    Shell × Outcome :=
  match st with
  | Step.line p os =>
    match handleBuiltin parseNumber p os sh with
    | some r => r
    | none => createJob p os sh
  | Step.signal (Delivery.sigchld reports) =>
    if sh.sigchldBlocked then (sh, Outcome.returned)
    else deliver (Delivery.sigchld reports) sh
  | Step.signal d => deliver d sh

/-- The shell after a sequence of rounds of the loop of `main`; the loop ends
when the process exits, and no further round starts while the shell stays
suspended. -/
def mainRun (parseNumber : Option String → Option Nat) : List Step → Shell → Shell
  | [], sh => sh
  | st :: rest, sh =>
    match mainStep parseNumber st sh with
    | (sh1, Outcome.exited) => sh1
    | (sh1, Outcome.suspended) => sh1
    | (sh1, _) => mainRun parseNumber rest sh1

/-! ## Example inputs -/

/-- The value of a string of decimal digits read after `acc`. -/
def digitsValue : List Char → Nat → Option Nat
  | [], acc => some acc
  | ch :: rest, acc =>
    if ch.isDigit then digitsValue rest (acc * 10 + (ch.toNat - 48)) else none

/-- A `parseNumber` for the examples: a non-empty string of decimal digits
denotes its value, anything else is rejected. -/
def parseDecimal : Option String → Option Nat
  | none => none
  | some s => if s.data = [] then none else digitsValue s.data 0

/-- A command without arguments. -/
def plain (name : String) : Command :=
  { command := name, tokens := [] }

/-- An operating system where every call succeeds: `open` returns 3 and 4,
the pipes get descriptors from 10 on, the children get pids from 100 on, and
no signal arrives. -/
def calmOS : OS :=
  { openInput := some 3, openOutput := some 4,
    pipe2 := fun i => (10 + 2 * i, 11 + 2 * i),
    fork := fun i => 100 + (i : Int),
    tcsetpgrpJob := TcResult.ok, tcsetpgrpShell := TcResult.ok,
    shellPid := 50, deliveries := [] }

/-- A shell with one Background job of two stages: the first stage (pid 100,
the group leader) is Running, the second (pid 101) is Stopped. -/
def twoStageShell : Shell :=
  { Shell.start with
    joblist := [{ num := 1, state := STSHJobState.kBackground, groupID := 100,
                  processes := [
                    { pid := 100, command := plain "yes", state := STSHProcessState.kRunning },
                    { pid := 101, command := plain "cat", state := STSHProcessState.kStopped }] }] }

/-- The pipeline `a | b | c &`, without redirection. -/
def threeStages : Pipeline :=
  { commands := [plain "a", plain "b", plain "c"], input := "", output := "",
    background := true }

/-- The pipeline `cmd < in.txt > out.txt &`. -/
def redirected : Pipeline :=
  { commands := [plain "cmd"], input := "in.txt", output := "out.txt", background := true }

/-- The foreground pipeline made of one command without arguments. -/
def foregroundLine (name : String) : Pipeline :=
  { commands := [plain name], input := "", output := "", background := false }

/-- An operating system where `tcsetpgrp` fails with an error other than
ENOTTY; the children get pids from `base` on. -/
def noTerminalOS (base : Int) : OS :=
  { calmOS with fork := fun i => base + (i : Int), tcsetpgrpJob := TcResult.failed }

/-! ## Reading the log -/

/-- The `addJob` calls in a log: state and number of each job created. -/
def addJobCalls (l : List Event) : List (STSHJobState × Nat) :=
  l.filterMap (fun e => match e with
    | Event.addJob s n => some (s, n)
    | _ => none)

/-- The `addProcess` calls in a log: job number, pid and command. -/
def addProcessCalls (l : List Event) : List (Nat × Pid × Command) :=
  l.filterMap (fun e => match e with
    | Event.addProcess n pid c => some (n, pid, c)
    | _ => none)

/-- The `setpgid` calls in a log: pid and group. -/
def setpgidCalls (l : List Event) : List (Pid × Pid) :=
  l.filterMap (fun e => match e with
    | Event.setpgid pid g => some (pid, g)
    | _ => none)

/-- The children forked in a log: pid and what the child does. -/
def forkedChildren (l : List Event) : List (Pid × List ChildAction) :=
  l.filterMap (fun e => match e with
    | Event.fork pid acts => some (pid, acts)
    | _ => none)

/-- The process record `createJob` builds for stage `x.1` running `x.2`. -/
def stageProcess (os : OS) (x : Nat × Command) : STSHProcess :=
  { pid := os.fork x.1, command := x.2, state := STSHProcessState.kRunning }

/-- The shell with `l` put in front of its log. -/
def Shell.precededBy (l : List Event) (sh : Shell) : Shell :=
  { sh with log := l ++ sh.log }

/-- The part of `createJob` that follows the two `open` lines: pipes, forks,
closing the pipes, and the wait or the return. -/
def createJobAfterOpen (p : Pipeline) (os : OS) (num : Nat) (input output : Fd)
    (sh : Shell) : Shell × Outcome :=
  let piped := makePipes os (p.commands.length - 1) 0 [] sh
  let forked := forkStages os p.commands.length input output piped.2 num p.commands 0 0 piped.1
  if launchState p = STSHJobState.kForeground then
    waitForForegroundJob forked.2 os (closePipes piped.2 forked.1)
  else (unblockSIGCHLD (closePipes piped.2 forked.1), Outcome.returned)

/-- The shell in `createJob` right after `joblist.addJob(state)`. -/
def createJobAdded (p : Pipeline) (sh : Shell) : Shell :=
  { blockSIGCHLD sh with
    joblist := (addJob sh.joblist (launchState p)).1,
    log := sh.log ++ [Event.blockSIGCHLD,
                      Event.addJob (launchState p) (addJob sh.joblist (launchState p)).2] }

/-! ## Theorems -/

/-! ### Recorded process states -/

theorem setStateIn_any (pid pid1 : Pid) (st : STSHProcessState) (qs : List STSHProcess) :
    (STSHJob.setStateIn pid st qs).any (fun q => q.pid == pid1)
      = qs.any (fun q => q.pid == pid1) := by
  induction qs with
  | nil => rfl
  | cons q qs ih =>
    by_cases h : (q.pid == pid) = true
    · simp [STSHJob.setStateIn, h]
    · simp [STSHJob.setStateIn, h, ih]

theorem setStateIn_find (pid : Pid) (st : STSHProcessState) (qs : List STSHProcess)
    (h : qs.any (fun q => q.pid == pid) = true) :
    ((STSHJob.setStateIn pid st qs).find? (fun q => q.pid == pid)).map (fun q => q.state)
      = some st := by
  induction qs with
  | nil => simp at h
  | cons q qs ih =>
    by_cases hq : (q.pid == pid) = true
    · simp [STSHJob.setStateIn, hq, List.find?]
    · have h1 : qs.any (fun q => q.pid == pid) = true := by
        simpa [List.any_cons, hq] using h
      simp only [STSHJob.setStateIn, hq, List.find?]
      simpa using ih h1

theorem processState_setProcessState (pid : Pid) (st : STSHProcessState) (jl : STSHJobList)
    (h : containsProcess jl pid = true) :
    processState (setProcessState pid st jl) pid = some st := by
  induction jl with
  | nil => simp [containsProcess] at h
  | cons j js ih =>
    by_cases hj : j.containsProcess pid = true
    · have hj1 : (j.setProcessState pid st).containsProcess pid = true := by
        simpa [STSHJob.containsProcess, STSHJob.setProcessState, setStateIn_any] using hj
      have hf := setStateIn_find pid st j.processes (by simpa [STSHJob.containsProcess] using hj)
      simp only [setProcessState, hj, if_true, processState, getJobWithProcess, List.find?, hj1]
      simpa [STSHJob.getProcess, STSHJob.setProcessState] using hf
    · have h1 : containsProcess js pid = true := by
        simpa [containsProcess, List.any_cons, hj] using h
      have := ih h1
      simp only [setProcessState, hj, processState, getJobWithProcess, List.find?] at this ⊢
      simpa using this

theorem getJobWithProcess_isSome (jl : STSHJobList) (pid : Pid)
    (h : containsProcess jl pid = true) :
    ∃ job, getJobWithProcess jl pid = some job ∧ job.containsProcess pid = true := by
  induction jl with
  | nil => simp [containsProcess] at h
  | cons j js ih =>
    by_cases hj : j.containsProcess pid = true
    · exact ⟨j, by simp [getJobWithProcess, List.find?, hj], hj⟩
    · have h1 : containsProcess js pid = true := by
        simpa [containsProcess, List.any_cons, hj] using h
      obtain ⟨job, h2, h3⟩ := ih h1
      refine ⟨job, ?_, h3⟩
      simp only [getJobWithProcess, List.find?] at h2 ⊢
      simpa [hj] using h2

theorem wait_status_exclusive (status : Nat) :
    (WIFSTOPPED status = true → WIFEXITED status = false ∧ WIFSIGNALED status = false) ∧
    (WIFCONTINUED status = true →
      WIFEXITED status = false ∧ WIFSIGNALED status = false ∧ WIFSTOPPED status = false) := by
  simp only [WIFSTOPPED, WIFEXITED, WIFSIGNALED, WIFCONTINUED, beq_iff_eq, decide_eq_true_eq,
    decide_eq_false_iff_not, beq_eq_false_iff_ne]
  constructor
  · intro h
    constructor
    · omega
    · have : status % 128 = 127 := by omega
      simp [this]
  · intro h
    subst h
    decide

/-! ### The job list after one report has been reaped -/

theorem setStateIn_mem (pid : Pid) (st : STSHProcessState) (qs : List STSHProcess)
    (h : qs.any (fun q => q.pid == pid) = true) :
    ∃ q, q ∈ STSHJob.setStateIn pid st qs ∧ q.state = st := by
  induction qs with
  | nil => simp at h
  | cons q qs ih =>
    by_cases hq : (q.pid == pid) = true
    · exact ⟨{ q with state := st }, by simp [STSHJob.setStateIn, hq], rfl⟩
    · have h1 : qs.any (fun q => q.pid == pid) = true := by
        simpa [List.any_cons, hq] using h
      obtain ⟨r, hr, hs⟩ := ih h1
      exact ⟨r, by simp [STSHJob.setStateIn, hq, hr], hs⟩

theorem getJob_setProcessState (jl : STSHJobList) (pid : Pid) (st : STSHProcessState)
    (job : STSHJob) (hjob : getJobWithProcess jl pid = some job)
    (hnum : getJob jl job.num = some job) :
    getJob (setProcessState pid st jl) job.num = some (job.setProcessState pid st) := by
  induction jl with
  | nil => simp [getJobWithProcess] at hjob
  | cons j js ih =>
    by_cases hj : j.containsProcess pid = true
    · have hjj : j = job := by
        simpa [getJobWithProcess, List.find?, hj] using hjob
      subst hjj
      simp [setProcessState, hj, getJob, List.find?, STSHJob.setProcessState]
    · have hjob1 : getJobWithProcess js pid = some job := by
        simpa [getJobWithProcess, List.find?, hj] using hjob
      have hcont : job.containsProcess pid = true := by
        have := List.find?_some hjob1
        simpa using this
      have hne : (j.num == job.num) = false := by
        by_contra hcon
        rw [Bool.not_eq_false] at hcon
        have hjj : j = job := by
          simpa [getJob, List.find?, hcon] using hnum
        rw [hjj] at hj
        exact hj hcont
      have hnum1 : getJob js job.num = some job := by
        simpa [getJob, List.find?, hne] using hnum
      have := ih hjob1 hnum1
      simp only [setProcessState, hj, getJob, List.find?, hne] at this ⊢
      simpa using this

theorem getJobWithProcess_modifyJob (jl : STSHJobList) (num : Nat) (f : STSHJob → STSHJob)
    (pid : Pid) (hf : ∀ j, (f j).processes = j.processes) :
    (getJobWithProcess (modifyJob jl num f) pid).map (fun j => j.processes)
      = (getJobWithProcess jl pid).map (fun j => j.processes) := by
  induction jl with
  | nil => rfl
  | cons j js ih =>
    simp only [getJobWithProcess, modifyJob, List.map_cons, List.find?] at ih ⊢
    by_cases hn : (j.num == num) = true
    · by_cases hj : j.containsProcess pid = true
      · have hfj : (f j).containsProcess pid = true := by
          simpa [STSHJob.containsProcess, hf] using hj
        simp [hn, hj, hfj, hf]
      · have hfj : (f j).containsProcess pid = false := by
          simpa [STSHJob.containsProcess, hf] using hj
        simp only [hn, if_true, hfj]
        simpa [hj] using ih
    · by_cases hj : j.containsProcess pid = true
      · simp [hn, hj]
      · simp only [hn]
        simpa [hj] using ih

theorem processState_modifyJob (jl : STSHJobList) (num : Nat) (f : STSHJob → STSHJob)
    (pid : Pid) (hf : ∀ j, (f j).processes = j.processes) :
    processState (modifyJob jl num f) pid = processState jl pid := by
  have h := getJobWithProcess_modifyJob jl num f pid hf
  unfold processState
  rcases h1 : getJobWithProcess (modifyJob jl num f) pid with _ | a <;>
    rcases h2 : getJobWithProcess jl pid with _ | b <;>
    rw [h1, h2] at h <;> simp at h
  · simp [STSHJob.getProcess, h]

theorem containsJob_filter_num (jl : STSHJobList) (num : Nat) :
    containsJob (jl.filter (fun j => !(j.num == num))) num = false := by
  simp only [containsJob, List.any_eq_false, List.mem_filter]
  rintro j ⟨-, hj⟩
  simpa using hj

theorem synchronize_state_or_removed (jl : STSHJobList) (num : Nat) (pid : Pid)
    (st : STSHProcessState) (h : processState jl pid = some st) :
    processState (synchronize jl num) pid = some st ∨
      containsJob (synchronize jl num) num = false := by
  unfold synchronize
  split
  · exact Or.inl h
  · split
    · exact Or.inr (containsJob_filter_num jl num)
    · split
      · left
        exact (processState_modifyJob jl num
          (fun j => { j with state := STSHJobState.kBackground }) pid (fun _ => rfl)).trans h
      · exact Or.inl h

theorem synchronize_state_of_alive (jl : STSHJobList) (num : Nat) (pid : Pid)
    (st : STSHProcessState) (job : STSHJob) (h : processState jl pid = some st)
    (hjob : getJob jl num = some job)
    (halive : job.processes.all (fun q => q.state == STSHProcessState.kTerminated) = false) :
    processState (synchronize jl num) pid = some st := by
  unfold synchronize
  simp only [hjob, halive]
  split
  · rename_i hc
    simp at hc
  · split
    · exact (processState_modifyJob jl num
          (fun j => { j with state := STSHJobState.kBackground }) pid (fun _ => rfl)).trans h
    · exact h

theorem reaped_state_of_alive (jl : STSHJobList) (pid : Pid) (st : STSHProcessState)
    (job : STSHJob) (h : containsProcess jl pid = true)
    (hjob : getJobWithProcess jl pid = some job) (hnum : getJob jl job.num = some job)
    (hst : st ≠ STSHProcessState.kTerminated) :
    processState (synchronize (setProcessState pid st jl) job.num) pid = some st := by
  have hcont : job.containsProcess pid = true := by
    have := List.find?_some hjob
    simpa using this
  obtain ⟨q, hq, hqs⟩ := setStateIn_mem pid st job.processes
    (by simpa [STSHJob.containsProcess] using hcont)
  refine synchronize_state_of_alive _ _ _ _ (job.setProcessState pid st)
    (processState_setProcessState pid st jl h)
    (getJob_setProcessState jl pid st job hjob hnum) ?_
  rw [List.all_eq_false]
  refine ⟨q, hq, ?_⟩
  rw [hqs]
  cases st <;> simp at hst ⊢

theorem synchronize_removed (jl : STSHJobList) (num : Nat) (job : STSHJob)
    (hjob : getJob jl num = some job)
    (hall : job.processes.all (fun q => q.state == STSHProcessState.kTerminated) = true) :
    containsJob (synchronize jl num) num = false := by
  unfold synchronize
  simp only [hjob, hall, if_true]
  exact containsJob_filter_num jl num

theorem reapProcess_step (jl : STSHJobList) (pid : Pid) (status : Nat)
    (rest : List (Pid × Nat)) (st : STSHProcessState) (job : STSHJob)
    (h : containsProcess jl pid = true) (hjob : getJobWithProcess jl pid = some job)
    (hstep : ∀ more, reapProcess ((pid, status) :: more) jl
      = reapProcess more (synchronize (setProcessState pid st jl) job.num)) :
    reapProcess ((pid, status) :: rest) jl
      = reapProcess rest (synchronize (setProcessState pid st jl) job.num) ∧
    reapProcess [(pid, status)] jl
      = (synchronize (setProcessState pid st jl) job.num, Outcome.returned) ∧
    processState (setProcessState pid st jl) pid = some st ∧
    (processState (reapProcess [(pid, status)] jl).1 pid = some st ∨
      containsJob (reapProcess [(pid, status)] jl).1 job.num = false) ∧
    (getJob jl job.num = some job →
      (job.setProcessState pid st).processes.all
          (fun q => q.state == STSHProcessState.kTerminated) = false →
      processState (reapProcess [(pid, status)] jl).1 pid = some st) ∧
    (getJob jl job.num = some job →
      (job.setProcessState pid st).processes.all
          (fun q => q.state == STSHProcessState.kTerminated) = true →
      containsJob (reapProcess [(pid, status)] jl).1 job.num = false) := by
  have hone : reapProcess [(pid, status)] jl
      = (synchronize (setProcessState pid st jl) job.num, Outcome.returned) := by
    rw [hstep []]
    rfl
  have hset := processState_setProcessState pid st jl h
  refine ⟨hstep rest, hone, hset, ?_, ?_, ?_⟩
  · rw [hone]
    exact synchronize_state_or_removed _ _ _ _ hset
  · intro hnum halive
    rw [hone]
    exact synchronize_state_of_alive _ _ _ _ _ hset
      (getJob_setProcessState jl pid st job hjob hnum) halive
  · intro hnum hall
    rw [hone]
    exact synchronize_removed _ _ _ (getJob_setProcessState jl pid st job hjob hnum) hall

/-- C5: when `waitpid` reports a status for a tracked pid, reapProcess sets
the state recorded for that pid to Terminated if the status is exited or
signaled, to Stopped if it is stopped and to Running if it is continued,
synchronizes the owning job and goes on with the next report.  For a single
report the handler returns the synchronized job list, in which the pid is
recorded with the new state unless synchronize has removed the job (which it
does exactly when all processes of the job are Terminated, so never for
Stopped or Running).  For any other status the handler throws "Unexpected
signal detected." and the job list is left as it was. -/
theorem reapProcess_maps_status (jl : STSHJobList) (pid : Pid) (status : Nat)
    (rest : List (Pid × Nat)) (h : containsProcess jl pid = true) :
    ∃ job, getJobWithProcess jl pid = some job ∧
      ((WIFEXITED status = true ∨ WIFSIGNALED status = true) →
        reapProcess ((pid, status) :: rest) jl
          = reapProcess rest
              (synchronize (setProcessState pid STSHProcessState.kTerminated jl) job.num) ∧
        reapProcess [(pid, status)] jl
          = (synchronize (setProcessState pid STSHProcessState.kTerminated jl) job.num,
             Outcome.returned) ∧
        processState (setProcessState pid STSHProcessState.kTerminated jl) pid
          = some STSHProcessState.kTerminated ∧
        (processState (reapProcess [(pid, status)] jl).1 pid
            = some STSHProcessState.kTerminated ∨
          containsJob (reapProcess [(pid, status)] jl).1 job.num = false) ∧
        (getJob jl job.num = some job →
          (job.setProcessState pid STSHProcessState.kTerminated).processes.all
              (fun q => q.state == STSHProcessState.kTerminated) = false →
          processState (reapProcess [(pid, status)] jl).1 pid
            = some STSHProcessState.kTerminated) ∧
        (getJob jl job.num = some job →
          (job.setProcessState pid STSHProcessState.kTerminated).processes.all
              (fun q => q.state == STSHProcessState.kTerminated) = true →
          containsJob (reapProcess [(pid, status)] jl).1 job.num = false)) ∧
      (WIFSTOPPED status = true →
        reapProcess ((pid, status) :: rest) jl
          = reapProcess rest
              (synchronize (setProcessState pid STSHProcessState.kStopped jl) job.num) ∧
        reapProcess [(pid, status)] jl
          = (synchronize (setProcessState pid STSHProcessState.kStopped jl) job.num,
             Outcome.returned) ∧
        processState (setProcessState pid STSHProcessState.kStopped jl) pid
          = some STSHProcessState.kStopped ∧
        (processState (reapProcess [(pid, status)] jl).1 pid = some STSHProcessState.kStopped ∨
          containsJob (reapProcess [(pid, status)] jl).1 job.num = false) ∧
        (getJob jl job.num = some job →
          processState (reapProcess [(pid, status)] jl).1 pid
            = some STSHProcessState.kStopped)) ∧
      (WIFCONTINUED status = true →
        reapProcess ((pid, status) :: rest) jl
          = reapProcess rest
              (synchronize (setProcessState pid STSHProcessState.kRunning jl) job.num) ∧
        reapProcess [(pid, status)] jl
          = (synchronize (setProcessState pid STSHProcessState.kRunning jl) job.num,
             Outcome.returned) ∧
        processState (setProcessState pid STSHProcessState.kRunning jl) pid
          = some STSHProcessState.kRunning ∧
        (processState (reapProcess [(pid, status)] jl).1 pid = some STSHProcessState.kRunning ∨
          containsJob (reapProcess [(pid, status)] jl).1 job.num = false) ∧
        (getJob jl job.num = some job →
          processState (reapProcess [(pid, status)] jl).1 pid
            = some STSHProcessState.kRunning)) ∧
      ((WIFEXITED status = false ∧ WIFSIGNALED status = false ∧ WIFSTOPPED status = false ∧
          WIFCONTINUED status = false) →
        reapProcess ((pid, status) :: rest) jl
          = (jl, Outcome.threw "Unexpected signal detected.") ∧
        processState (reapProcess ((pid, status) :: rest) jl).1 pid
          = processState jl pid) := by
  obtain ⟨job, hjob, -⟩ := getJobWithProcess_isSome jl pid h
  obtain ⟨hstop, hcont⟩ := wait_status_exclusive status
  refine ⟨job, hjob, ?_, ?_, ?_, ?_⟩
  · intro hs
    have hb : (WIFEXITED status || WIFSIGNALED status) = true := by
      rcases hs with hs | hs <;> simp [hs]
    exact reapProcess_step jl pid status rest _ job h hjob
      (fun more => by simp [reapProcess, hjob, hb])
  · intro hs
    obtain ⟨h1, h2⟩ := hstop hs
    obtain ⟨s1, s2, s3, s4, -, -⟩ := reapProcess_step jl pid status rest
      STSHProcessState.kStopped job h hjob
      (fun more => by simp [reapProcess, hjob, h1, h2, hs])
    refine ⟨s1, s2, s3, s4, ?_⟩
    intro hnum
    rw [s2]
    exact reaped_state_of_alive jl pid _ job h hjob hnum (by decide)
  · intro hs
    obtain ⟨h1, h2, h3⟩ := hcont hs
    obtain ⟨s1, s2, s3, s4, -, -⟩ := reapProcess_step jl pid status rest
      STSHProcessState.kRunning job h hjob
      (fun more => by simp [reapProcess, hjob, h1, h2, h3, hs])
    refine ⟨s1, s2, s3, s4, ?_⟩
    intro hnum
    rw [s2]
    exact reaped_state_of_alive jl pid _ job h hjob hnum (by decide)
  · rintro ⟨h1, h2, h3, h4⟩
    have he : reapProcess ((pid, status) :: rest) jl
        = (jl, Outcome.threw "Unexpected signal detected.") := by
      simp [reapProcess, hjob, h1, h2, h3, h4]
    exact ⟨he, by rw [he]⟩

/-- An instance of C5: process 101 of job 1 is reported with status 0
(exited); the handler returns the job list in which 101 is Terminated and the
first stage still Running. -/
theorem reapProcess_maps_status_witness :
    reapProcess [(101, 0)] twoStageShell.joblist
      = ([{ num := 1, state := STSHJobState.kBackground, groupID := 100,
            processes := [
              { pid := 100, command := plain "yes", state := STSHProcessState.kRunning },
              { pid := 101, command := plain "cat",
                state := STSHProcessState.kTerminated }] }],
         Outcome.returned) ∧
    processState (reapProcess [(101, 0)] twoStageShell.joblist).1 101
      = some STSHProcessState.kTerminated := by
  obtain ⟨job, hjob, hterm, -, -, -⟩ :=
    reapProcess_maps_status twoStageShell.joblist 101 0 [] (by decide)
  have hj : job = (⟨1, STSHJobState.kBackground, 100,
      [⟨100, plain "yes", STSHProcessState.kRunning⟩,
       ⟨101, plain "cat", STSHProcessState.kStopped⟩]⟩ : STSHJob) :=
    Option.some.inj (hjob.symm.trans (by decide))
  subst hj
  obtain ⟨-, hone, -, -, halive, -⟩ := hterm (Or.inl (by decide))
  exact ⟨hone.trans (by decide), halive (by decide) (by decide)⟩

theorem processState_isSome (jl : STSHJobList) (pid : Pid)
    (h : containsProcess jl pid = true) : ∃ st, processState jl pid = some st := by
  obtain ⟨job, hjob, hc⟩ := getJobWithProcess_isSome jl pid h
  have : ∃ q, job.getProcess pid = some q := by
    have h1 : (job.processes.find? (fun q => q.pid == pid)).isSome = true := by
      rw [List.find?_isSome]
      simpa [STSHJob.containsProcess] using hc
    exact Option.isSome_iff_exists.mp h1
  obtain ⟨q, hq⟩ := this
  exact ⟨q.state, by simp [processState, hjob, hq]⟩

theorem containsProcess_of_getJob (jl : STSHJobList) (j k : Nat) (job : STSHJob)
    (q : STSHProcess) (hj : getJob jl j = some job) (hq : job.processes.get? k = some q) :
    containsProcess jl q.pid = true := by
  have hmem : job ∈ jl := List.mem_of_find?_eq_some hj
  have hqm : q ∈ job.processes := List.get?_mem hq
  simp only [containsProcess, List.any_eq_true]
  refine ⟨job, hmem, ?_⟩
  simp only [STSHJob.containsProcess, List.any_eq_true]
  exact ⟨q, hqm, by simp⟩

theorem findProcess_ok_iff (parseNumber : Option String → Option Nat) (jl : STSHJobList)
    (c : Command) (usage : String) (pid : Pid) :
    findProcess parseNumber jl c usage = Except.ok pid ↔
      ((∃ t v, c.tokens = [t] ∧ parseNumber (some t) = some v ∧
          containsProcess jl (toPidT v) = true ∧ pid = toPidT v) ∨
       (∃ tj tk j k job q, c.tokens = [tj, tk] ∧ parseNumber (some tj) = some j ∧
          parseNumber (some tk) = some k ∧ getJob jl j = some job ∧
          k < job.processes.length ∧ job.processes.get? k = some q ∧ pid = q.pid)) := by
  constructor
  · intro h
    unfold findProcess at h
    split at h
    · cases h
    · cases h
    · rename_i t0 hc
      split at h
      · cases h
      · rename_i v hp
        left
        by_cases hcp : containsProcess jl (toPidT v) = true
        · rw [if_neg (by rw [hcp]; decide)] at h
          cases h
          exact ⟨t0, v, hc, hp, hcp, rfl⟩
        · rw [if_pos (by rw [Bool.not_eq_true] at hcp; rw [hcp]; rfl)] at h
          cases h
    · rename_i t0 t1 hc
      split at h
      · cases h
      · rename_i j hp
        split at h
        · cases h
        · rename_i job hj
          split at h
          · cases h
          · rename_i k hk
            split at h
            · cases h
            · rename_i q hq
              cases h
              right
              exact ⟨t0, t1, j, k, job, q, hc, hp, hk, hj, (List.get?_eq_some.mp hq).1, hq, rfl⟩
  · rintro (⟨t, v, hc, hp, hcp, rfl⟩ | ⟨tj, tk, j, k, job, q, hc, hp, hk, hj, -, hq, rfl⟩)
    · unfold findProcess
      rw [hc]
      simp only [hp]
      rw [if_neg (by rw [hcp]; decide)]
    · unfold findProcess
      rw [hc]
      simp only [hp, hj, hk, hq]

theorem findProcess_ok_contains (parseNumber : Option String → Option Nat) (jl : STSHJobList)
    (c : Command) (usage : String) (pid : Pid)
    (h : findProcess parseNumber jl c usage = Except.ok pid) :
    containsProcess jl pid = true := by
  rcases (findProcess_ok_iff parseNumber jl c usage pid).mp h with
    ⟨t, v, -, -, hcp, rfl⟩ | ⟨tj, tk, j, k, job, q, -, -, -, hj, -, hq, rfl⟩
  · exact hcp
  · exact containsProcess_of_getJob jl j k job q hj hq

theorem toPidT_small (v : Nat) (h : v < 2147483648) : toPidT v = (v : Int) := by
  unfold toPidT
  have h1 : v % 4294967296 = v := Nat.mod_eq_of_lt (by omega)
  rw [h1, if_pos h]

/-- C6 as stated fails: pids 100 and 101 are tracked and 4294967396 is the pid
of no tracked process, yet findProcess resolves the token 4294967396 to pid 100
(the conversion to pid_t drops 2^32) and slay sends SIGINT to pid 100. -/
theorem findProcess_accepts_wrapped_pid :
    containsProcess twoStageShell.joblist 4294967396 = false ∧
    parseDecimal (some "4294967396") = some 4294967396 ∧
    findProcess parseDecimal twoStageShell.joblist
        { command := "slay", tokens := ["4294967396"] } "Usgae: slay <jobid> <index> | <pid>."
      = Except.ok 100 ∧
    slayProcess parseDecimal { command := "slay", tokens := ["4294967396"] } twoStageShell
      = ({ twoStageShell with log := [Event.kill 100 Signal.SIGINT] }, Outcome.returned) :=
  ⟨by decide, by decide, rfl, by decide⟩

/-- C6, amended: findProcess succeeds exactly for one numeric token whose
value, converted to pid_t the way the code converts it (reduced modulo 2^32
into the signed 32-bit range, so the value itself below 2^31), is the pid of a
tracked process, and for two numeric tokens naming an existing job and a
position inside its process list; it then returns that pid.  In every other
case it raises an error, with the message "No process with pid P." for an
untracked converted pid P, and slay, halt and cont then leave the shell as it
was: no signal is sent and no job changes. -/
theorem findProcess_resolution (parseNumber : Option String → Option Nat) (sh : Shell)
    (c : Command) (usage : String) :
    (∀ pid, findProcess parseNumber sh.joblist c usage = Except.ok pid ↔
      ((∃ t v, c.tokens = [t] ∧ parseNumber (some t) = some v ∧
          containsProcess sh.joblist (toPidT v) = true ∧ pid = toPidT v) ∨
       (∃ tj tk j k job q, c.tokens = [tj, tk] ∧ parseNumber (some tj) = some j ∧
          parseNumber (some tk) = some k ∧ getJob sh.joblist j = some job ∧
          k < job.processes.length ∧ job.processes.get? k = some q ∧ pid = q.pid))) ∧
    (∀ v, v < 2147483648 → toPidT v = (v : Int)) ∧
    ((∀ pid, findProcess parseNumber sh.joblist c usage ≠ Except.ok pid) →
      ∃ msg, findProcess parseNumber sh.joblist c usage = Except.error msg) ∧
    (∀ t v, c.tokens = [t] → parseNumber (some t) = some v →
      containsProcess sh.joblist (toPidT v) = false →
      findProcess parseNumber sh.joblist c usage
        = Except.error ("No process with pid " ++ toString (toPidT v) ++ ".")) ∧
    (∀ msg, findProcess parseNumber sh.joblist c "Usgae: slay <jobid> <index> | <pid>."
        = Except.error msg →
      slayProcess parseNumber c sh = (sh, Outcome.threw msg)) ∧
    (∀ msg, findProcess parseNumber sh.joblist c "Usgae: halt <jobid> <index> | <pid>."
        = Except.error msg →
      haltProcess parseNumber c sh = (sh, Outcome.threw msg)) ∧
    (∀ msg, findProcess parseNumber sh.joblist c "Usage: cont <jobid> <index> | <pid>."
        = Except.error msg →
      continueProcess parseNumber c sh = (sh, Outcome.threw msg)) := by
  refine ⟨fun pid => findProcess_ok_iff parseNumber sh.joblist c usage pid, toPidT_small,
    ?_, ?_, ?_, ?_, ?_⟩
  · intro h
    rcases hf : findProcess parseNumber sh.joblist c usage with msg | pid
    · exact ⟨msg, rfl⟩
    · exact absurd hf (h pid)
  · intro t v hc hp hcp
    unfold findProcess
    rw [hc]
    simp only [hp]
    rw [if_pos (by rw [hcp]; rfl)]
  · intro msg h
    simp only [slayProcess, h]
  · intro msg h
    simp only [haltProcess, h]
  · intro msg h
    simp only [continueProcess, h]

/-- An instance of the amended C6: with pids 100 and 101 tracked, the token 7 is refused
with the message for an untracked pid and slay leaves the shell untouched. -/
theorem findProcess_resolution_witness :
    findProcess parseDecimal twoStageShell.joblist { command := "slay", tokens := ["7"] }
        "Usgae: slay <jobid> <index> | <pid>."
      = Except.error "No process with pid 7." ∧
    slayProcess parseDecimal { command := "slay", tokens := ["7"] } twoStageShell
      = (twoStageShell, Outcome.threw "No process with pid 7.") :=
  have h := findProcess_resolution parseDecimal twoStageShell
    { command := "slay", tokens := ["7"] } "Usgae: slay <jobid> <index> | <pid>."
  have h1 := h.2.2.2.1 "7" 7 rfl (by decide) (by decide)
  ⟨h1, h.2.2.2.2.1 _ h1⟩

/-- C7: for a target that findProcess resolves, halt sends exactly one SIGTSTP
to that pid unless the process is recorded as Stopped, cont sends exactly one
SIGCONT unless it is recorded as Running, and otherwise they send nothing;
neither changes the job list, so a second halt of a Stopped process again
sends nothing. -/
theorem halt_cont_send_once (parseNumber : Option String → Option Nat) (sh : Shell)
    (c : Command) :
    (∀ pid, findProcess parseNumber sh.joblist c "Usgae: halt <jobid> <index> | <pid>."
        = Except.ok pid →
      ∃ st, processState sh.joblist pid = some st ∧
        (st ≠ STSHProcessState.kStopped →
          haltProcess parseNumber c sh
            = ({ sh with log := sh.log ++ [Event.kill pid Signal.SIGTSTP] },
               Outcome.returned)) ∧
        (st = STSHProcessState.kStopped →
          haltProcess parseNumber c sh = (sh, Outcome.returned) ∧
          haltProcess parseNumber c (haltProcess parseNumber c sh).1
            = (sh, Outcome.returned))) ∧
    (∀ pid, findProcess parseNumber sh.joblist c "Usage: cont <jobid> <index> | <pid>."
        = Except.ok pid →
      ∃ st, processState sh.joblist pid = some st ∧
        (st ≠ STSHProcessState.kRunning →
          continueProcess parseNumber c sh
            = ({ sh with log := sh.log ++ [Event.kill pid Signal.SIGCONT] },
               Outcome.returned)) ∧
        (st = STSHProcessState.kRunning →
          continueProcess parseNumber c sh = (sh, Outcome.returned))) ∧
    (haltProcess parseNumber c sh).1.joblist = sh.joblist ∧
    (continueProcess parseNumber c sh).1.joblist = sh.joblist := by
  refine ⟨?_, ?_, ?_, ?_⟩
  · intro pid h
    obtain ⟨st, hst⟩ := processState_isSome sh.joblist pid
      (findProcess_ok_contains parseNumber sh.joblist c _ pid h)
    refine ⟨st, hst, ?_, ?_⟩
    · intro hne
      simp only [haltProcess, h, hst, kill, Shell.emit]
      rw [if_pos hne]
    · intro heq
      have h1 : haltProcess parseNumber c sh = (sh, Outcome.returned) := by
        simp only [haltProcess, h, hst]
        rw [if_neg (by simp [heq])]
      refine ⟨h1, ?_⟩
      rw [h1]
      exact h1
  · intro pid h
    obtain ⟨st, hst⟩ := processState_isSome sh.joblist pid
      (findProcess_ok_contains parseNumber sh.joblist c _ pid h)
    refine ⟨st, hst, ?_, ?_⟩
    · intro hne
      simp only [continueProcess, h, hst, kill, Shell.emit]
      rw [if_pos hne]
    · intro heq
      simp only [continueProcess, h, hst]
      rw [if_neg (by simp [heq])]
  · unfold haltProcess
    split
    · rfl
    · split
      · rfl
      · split <;> rfl
  · unfold continueProcess
    split
    · rfl
    · split
      · rfl
      · split <;> rfl

/-- An instance of C7: halting the Stopped process 101 sends nothing, and
halting it again sends nothing either. -/
theorem halt_cont_send_once_witness :
    haltProcess parseDecimal { command := "halt", tokens := ["101"] } twoStageShell
      = (twoStageShell, Outcome.returned) ∧
    haltProcess parseDecimal { command := "halt", tokens := ["101"] }
        (haltProcess parseDecimal { command := "halt", tokens := ["101"] } twoStageShell).1
      = (twoStageShell, Outcome.returned) :=
  have h := (halt_cont_send_once parseDecimal twoStageShell
    { command := "halt", tokens := ["101"] }).1 101 rfl
  Exists.elim h (fun st hst =>
    have hs : st = STSHProcessState.kStopped :=
      Option.some.inj (hst.1.symm.trans (by decide))
    hst.2.2 hs)

/-- C10 as stated fails: job 1 is Background and its second stage (pid 101)
is Stopped, yet `bg 1` sends no signal, because the first stage is Running. -/
theorem bg_ignores_stopped_later_stage :
    getJob twoStageShell.joblist 1
      = some { num := 1, state := STSHJobState.kBackground, groupID := 100,
               processes := [
                 { pid := 100, command := plain "yes", state := STSHProcessState.kRunning },
                 { pid := 101, command := plain "cat",
                   state := STSHProcessState.kStopped }] } ∧
    continueJobBackground parseDecimal { command := "bg", tokens := ["1"] } twoStageShell
      = (twoStageShell, Outcome.returned) := by
  decide

/-- C10, amended: for an existing job, `bg <jobid>` sends SIGCONT to the
process group of the job when the job is Background and the process whose pid
is the group id of the job is recorded as Stopped; in every other case it
sends nothing; and it never changes the job list. -/
theorem bg_continues_stopped_leader (parseNumber : Option String → Option Nat) (sh : Shell)
    (c : Command) (t : String) (j : Nat) (job : STSHJob)
    (hc : c.tokens = [t]) (hp : parseNumber (some t) = some j)
    (hj : getJob sh.joblist j = some job) :
    ((job.state = STSHJobState.kBackground ∧
        (job.getProcess job.groupID).map (fun q => q.state)
          = some STSHProcessState.kStopped) →
      continueJobBackground parseNumber c sh
        = ({ sh with log := sh.log ++ [Event.kill (-1 * job.groupID) Signal.SIGCONT] },
           Outcome.returned)) ∧
    (¬ (job.state = STSHJobState.kBackground ∧
        (job.getProcess job.groupID).map (fun q => q.state)
          = some STSHProcessState.kStopped) →
      (continueJobBackground parseNumber c sh).1 = sh) ∧
    (continueJobBackground parseNumber c sh).1.joblist = sh.joblist := by
  have hlen : ¬ (2 ≤ c.tokens.length) := by rw [hc]; simp
  have h0 : c.tokens.get? 0 = some t := by rw [hc]; rfl
  unfold continueJobBackground
  rw [if_neg hlen]
  simp only [h0, hp, hj]
  by_cases hb : job.state = STSHJobState.kBackground
  · rw [if_pos hb]
    rcases hq : job.getProcess job.groupID with _ | q
    · simp [hb]
    · by_cases hs : q.state = STSHProcessState.kStopped
      · simp [hb, hs, kill, Shell.emit]
      · simp [hb, hs]
  · rw [if_neg hb]
    simp [hb]

/-- An instance of the amended C10: once the leader of job 1 is Stopped,
`bg 1` sends SIGCONT to the group -100. -/
theorem bg_continues_stopped_leader_witness :
    continueJobBackground parseDecimal { command := "bg", tokens := ["1"] }
        { twoStageShell with joblist := setProcessState 100 STSHProcessState.kStopped
                                          twoStageShell.joblist }
      = ({ twoStageShell with
            joblist := setProcessState 100 STSHProcessState.kStopped twoStageShell.joblist,
            log := [Event.kill (-100) Signal.SIGCONT] },
         Outcome.returned) :=
  (bg_continues_stopped_leader parseDecimal
    { twoStageShell with joblist := setProcessState 100 STSHProcessState.kStopped
                                      twoStageShell.joblist }
    { command := "bg", tokens := ["1"] } "1" 1
    { num := 1, state := STSHJobState.kBackground, groupID := 100,
      processes := [
        { pid := 100, command := plain "yes", state := STSHProcessState.kStopped },
        { pid := 101, command := plain "cat", state := STSHProcessState.kStopped }] }
    rfl (by decide) (by decide)).1 ⟨rfl, by decide⟩

/-! ### Job numbers -/

theorem containsJob_iff (jl : STSHJobList) (m : Nat) :
    containsJob jl m = true ↔ m ∈ jl.map (fun j => j.num) := by
  simp only [containsJob, List.any_eq_true, List.mem_map, beq_iff_eq]

theorem firstFreeFrom_spec (jl : STSHJobList) (fuel c : Nat) :
    c ≤ firstFreeFrom jl fuel c ∧ firstFreeFrom jl fuel c ≤ c + fuel ∧
    (∀ m, c ≤ m → m < firstFreeFrom jl fuel c → containsJob jl m = true) ∧
    (containsJob jl (firstFreeFrom jl fuel c) = true → firstFreeFrom jl fuel c = c + fuel) := by
  induction fuel generalizing c with
  | zero =>
    refine ⟨le_refl _, le_refl _, ?_, fun _ => rfl⟩
    intro m hm hlt
    simp only [firstFreeFrom] at hlt
    omega
  | succ fuel ih =>
    by_cases h : containsJob jl c = true
    · obtain ⟨h1, h2, h3, h4⟩ := ih (c + 1)
      simp only [firstFreeFrom, h, if_true]
      refine ⟨by omega, by omega, ?_, ?_⟩
      · intro m hm hlt
        by_cases hmc : m = c
        · rw [hmc]; exact h
        · exact h3 m (by omega) hlt
      · intro hc
        have := h4 hc
        omega
    · simp only [firstFreeFrom, h]
      refine ⟨le_refl _, by simp, ?_, ?_⟩
      · intro m hm hlt
        simp at hlt
        omega
      · intro hc
        simp at hc
        exact absurd hc h

theorem nextJobNum_fresh (jl : STSHJobList) : containsJob jl (nextJobNum jl) = false := by
  by_contra hcon
  rw [Bool.not_eq_false] at hcon
  obtain ⟨-, -, h3, h4⟩ := firstFreeFrom_spec jl jl.length 1
  have hr : nextJobNum jl = 1 + jl.length := h4 hcon
  have hsub : Finset.Icc 1 (jl.length + 1) ⊆ (jl.map (fun j => j.num)).toFinset := by
    intro m hm
    rw [Finset.mem_Icc] at hm
    rw [List.mem_toFinset, ← containsJob_iff]
    by_cases hlt : m < nextJobNum jl
    · exact h3 m hm.1 hlt
    · have : m = nextJobNum jl := by omega
      rw [this]; exact hcon
  have hcard := Finset.card_le_card hsub
  have hle : (jl.map (fun j => j.num)).toFinset.card ≤ jl.length := by
    have := List.toFinset_card_le (jl.map (fun j => j.num))
    simpa using this
  simp at hcard
  omega

theorem nextJobNum_pos (jl : STSHJobList) : 1 ≤ nextJobNum jl :=
  (firstFreeFrom_spec jl jl.length 1).1

theorem modifyJob_fresh (jl : STSHJobList) (num : Nat) (f : STSHJob → STSHJob)
    (h : containsJob jl num = false) : modifyJob jl num f = jl := by
  induction jl with
  | nil => rfl
  | cons j js ih =>
    simp only [containsJob, List.any_cons, Bool.or_eq_false_iff] at h
    have := ih (by simpa [containsJob] using h.2)
    simp only [modifyJob, List.map_cons, h.1] at this ⊢
    rw [this]
    simp

theorem modifyJob_last (jl : STSHJobList) (job : STSHJob) (f : STSHJob → STSHJob)
    (h : containsJob jl job.num = false) :
    modifyJob (jl ++ [job]) job.num f = jl ++ [f job] := by
  have := modifyJob_fresh jl job.num f h
  simp only [modifyJob, List.map_append] at this ⊢
  rw [this]
  simp

theorem getJob_last (jl : STSHJobList) (job : STSHJob)
    (h : containsJob jl job.num = false) : getJob (jl ++ [job]) job.num = some job := by
  induction jl with
  | nil => simp [getJob, List.find?]
  | cons j js ih =>
    simp only [containsJob, List.any_cons, Bool.or_eq_false_iff] at h
    have := ih (by simpa [containsJob] using h.2)
    simp only [getJob, List.cons_append, List.find?, h.1] at this ⊢
    exact this

/-! ### What each part of `createJob` adds to the log and to the job list -/

theorem openInput_calls (p : Pipeline) (os : OS) (sh : Shell) :
    (openInput p os sh).1.joblist = sh.joblist ∧
    addJobCalls (openInput p os sh).1.log = addJobCalls sh.log ∧
    addProcessCalls (openInput p os sh).1.log = addProcessCalls sh.log ∧
    setpgidCalls (openInput p os sh).1.log = setpgidCalls sh.log := by
  unfold openInput
  split
  · simp
  · split <;>
      simp [Shell.emit, addJobCalls, addProcessCalls, setpgidCalls, List.filterMap_append]

theorem openOutput_calls (p : Pipeline) (os : OS) (sh : Shell) :
    (openOutput p os sh).1.joblist = sh.joblist ∧
    addJobCalls (openOutput p os sh).1.log = addJobCalls sh.log ∧
    addProcessCalls (openOutput p os sh).1.log = addProcessCalls sh.log ∧
    setpgidCalls (openOutput p os sh).1.log = setpgidCalls sh.log := by
  unfold openOutput
  split
  · simp
  · split <;>
      simp [Shell.emit, addJobCalls, addProcessCalls, setpgidCalls, List.filterMap_append]

theorem makePipes_calls (os : OS) (k i : Nat) (pipes : List (Fd × Fd)) (sh : Shell) :
    (makePipes os k i pipes sh).1.joblist = sh.joblist ∧
    addJobCalls (makePipes os k i pipes sh).1.log = addJobCalls sh.log ∧
    addProcessCalls (makePipes os k i pipes sh).1.log = addProcessCalls sh.log ∧
    setpgidCalls (makePipes os k i pipes sh).1.log = setpgidCalls sh.log := by
  induction k generalizing i pipes sh with
  | zero => simp [makePipes]
  | succ k ih =>
    obtain ⟨h1, h2, h3, h4⟩ := ih (i + 1)
      (pipes ++ [(((os.pipe2 i).1 : Int), ((os.pipe2 i).2 : Int))])
      { sh with openFds := sh.openFds ++ [((os.pipe2 i).1 : Int), ((os.pipe2 i).2 : Int)],
                log := sh.log ++ [Event.pipe2 (os.pipe2 i).1 (os.pipe2 i).2] }
    simp only [makePipes]
    rw [h1, h2, h3, h4]
    simp [addJobCalls, addProcessCalls, setpgidCalls, List.filterMap_append]

theorem closePipes_calls (pipes : List (Fd × Fd)) (sh : Shell) :
    (closePipes pipes sh).joblist = sh.joblist ∧
    addJobCalls (closePipes pipes sh).log = addJobCalls sh.log ∧
    addProcessCalls (closePipes pipes sh).log = addProcessCalls sh.log ∧
    setpgidCalls (closePipes pipes sh).log = setpgidCalls sh.log := by
  induction pipes generalizing sh with
  | nil => simp [closePipes]
  | cons fds rest ih =>
    obtain ⟨h1, h2, h3, h4⟩ := ih (close (close sh fds.1) fds.2)
    simp only [closePipes]
    rw [h1, h2, h3, h4]
    simp [close, addJobCalls, addProcessCalls, setpgidCalls, List.filterMap_append]

theorem forkStages_calls (os : OS) (n : Nat) (input output : Fd) (pipes : List (Fd × Fd))
    (num : Nat) (cs : List Command) (i : Nat) (g : Pid) (sh : Shell) :
    addJobCalls (forkStages os n input output pipes num cs i g sh).1.log
      = addJobCalls sh.log ∧
    addProcessCalls (forkStages os n input output pipes num cs i g sh).1.log
      = addProcessCalls sh.log ++ (cs.enumFrom i).map (fun x => (num, os.fork x.1, x.2)) ∧
    setpgidCalls (forkStages os n input output pipes num cs i g sh).1.log
      = setpgidCalls sh.log
        ++ (cs.enumFrom i).map (fun x => (os.fork x.1, if i = 0 then os.fork 0 else g)) := by
  induction cs generalizing i g sh with
  | nil => simp [forkStages]
  | cons c cs ih =>
    simp only [forkStages]
    obtain ⟨h1, h2, h3⟩ := ih (i + 1) (if (i == 0) = true then os.fork i else g)
      { sh with
        joblist := modifyJob sh.joblist num (fun j => j.addProcess
          { pid := os.fork i, command := c, state := STSHProcessState.kRunning }),
        log := sh.log ++ [Event.fork (os.fork i) (childActions i n input output pipes c),
                          Event.setpgid (os.fork i) (if (i == 0) = true then os.fork i else g),
                          Event.addProcess num (os.fork i) c] }
    rw [h1, h2, h3]
    refine ⟨?_, ?_, ?_⟩
    · simp [addJobCalls, List.filterMap_append]
    · simp [addProcessCalls, List.filterMap_append, List.enumFrom]
    · by_cases hi : i = 0
      · subst hi
        simp [setpgidCalls, List.filterMap_append, List.enumFrom]
      · simp [setpgidCalls, List.filterMap_append, List.enumFrom, hi]

theorem forkStages_joblist (os : OS) (n : Nat) (input output : Fd) (pipes : List (Fd × Fd))
    (num : Nat) (cs : List Command) (i : Nat) (g : Pid) (sh : Shell) (jl : STSHJobList)
    (job : STSHJob) (hnum : job.num = num)
    (hjl : sh.joblist = jl ++ [job]) (hfresh : containsJob jl num = false)
    (hg : job.groupID ≠ 0) :
    (forkStages os n input output pipes num cs i g sh).1.joblist
      = jl ++ [{ job with
                 processes := job.processes ++ (cs.enumFrom i).map (stageProcess os) }] := by
  induction cs generalizing i g sh job with
  | nil => simp [forkStages, hjl]
  | cons c cs ih =>
    simp only [forkStages]
    subst hnum
    have hstep := ih (i + 1) (if (i == 0) = true then os.fork i else g)
      { sh with
        joblist := modifyJob sh.joblist job.num (fun j => j.addProcess
          { pid := os.fork i, command := c, state := STSHProcessState.kRunning }),
        log := sh.log ++ [Event.fork (os.fork i) (childActions i n input output pipes c),
                          Event.setpgid (os.fork i) (if (i == 0) = true then os.fork i else g),
                          Event.addProcess job.num (os.fork i) c] }
      (job.addProcess { pid := os.fork i, command := c, state := STSHProcessState.kRunning })
      rfl
      (by simp only [hjl]; exact modifyJob_last jl job _ hfresh)
      (by simp [STSHJob.addProcess, hg])
    rw [hstep]
    simp [STSHJob.addProcess, hg, List.enumFrom, stageProcess]

theorem killForegroundJob_calls (sh : Shell) :
    addJobCalls (killForegroundJob sh).log = addJobCalls sh.log ∧
    addProcessCalls (killForegroundJob sh).log = addProcessCalls sh.log ∧
    setpgidCalls (killForegroundJob sh).log = setpgidCalls sh.log := by
  unfold killForegroundJob
  split
  · simp
  · split <;>
      simp [kill, Shell.emit, addJobCalls, addProcessCalls, setpgidCalls, List.filterMap_append]

theorem stopForegroundJob_calls (sh : Shell) :
    addJobCalls (stopForegroundJob sh).log = addJobCalls sh.log ∧
    addProcessCalls (stopForegroundJob sh).log = addProcessCalls sh.log ∧
    setpgidCalls (stopForegroundJob sh).log = setpgidCalls sh.log := by
  unfold stopForegroundJob
  split
  · simp
  · split <;>
      simp [kill, Shell.emit, addJobCalls, addProcessCalls, setpgidCalls, List.filterMap_append]

theorem deliver_calls (d : Delivery) (sh : Shell) :
    addJobCalls (deliver d sh).1.log = addJobCalls sh.log ∧
    addProcessCalls (deliver d sh).1.log = addProcessCalls sh.log ∧
    setpgidCalls (deliver d sh).1.log = setpgidCalls sh.log := by
  cases d with
  | sigchld reports => simp [deliver]
  | sigint => exact killForegroundJob_calls sh
  | sigtstp => exact stopForegroundJob_calls sh

theorem emit_sigsuspend_calls (sh : Shell) :
    addJobCalls (sh.emit Event.sigsuspend).log = addJobCalls sh.log ∧
    addProcessCalls (sh.emit Event.sigsuspend).log = addProcessCalls sh.log ∧
    setpgidCalls (sh.emit Event.sigsuspend).log = setpgidCalls sh.log := by
  simp [Shell.emit, addJobCalls, addProcessCalls, setpgidCalls, List.filterMap_append]

theorem waitLoop_calls (ds : List Delivery) (sh : Shell) :
    addJobCalls (waitLoop ds sh).1.log = addJobCalls sh.log ∧
    addProcessCalls (waitLoop ds sh).1.log = addProcessCalls sh.log ∧
    setpgidCalls (waitLoop ds sh).1.log = setpgidCalls sh.log := by
  induction ds generalizing sh with
  | nil =>
    unfold waitLoop
    split
    · exact emit_sigsuspend_calls sh
    · simp
  | cons d ds ih =>
    unfold waitLoop
    obtain ⟨e1, e2, e3⟩ := emit_sigsuspend_calls sh
    obtain ⟨d1, d2, d3⟩ := deliver_calls d (sh.emit Event.sigsuspend)
    split
    · split
      · rename_i sh1 heq
        obtain ⟨w1, w2, w3⟩ := ih sh1
        rw [heq] at d1 d2 d3
        simp only at d1 d2 d3
        rw [w1, w2, w3, d1, d2, d3, e1, e2, e3]
        exact ⟨rfl, rfl, rfl⟩
      · rename_i sh1 o hne heq
        rw [heq] at d1 d2 d3
        simp only at d1 d2 d3
        rw [d1, d2, d3, e1, e2, e3]
        exact ⟨rfl, rfl, rfl⟩
    · simp

theorem waitForForegroundJob_calls (g : Pid) (os : OS) (sh : Shell) :
    addJobCalls (waitForForegroundJob g os sh).1.log = addJobCalls sh.log ∧
    addProcessCalls (waitForForegroundJob g os sh).1.log = addProcessCalls sh.log ∧
    setpgidCalls (waitForForegroundJob g os sh).1.log = setpgidCalls sh.log := by
  have e : addJobCalls (sh.emit (Event.tcsetpgrp g)).log = addJobCalls sh.log ∧
      addProcessCalls (sh.emit (Event.tcsetpgrp g)).log = addProcessCalls sh.log ∧
      setpgidCalls (sh.emit (Event.tcsetpgrp g)).log = setpgidCalls sh.log := by
    simp [Shell.emit, addJobCalls, addProcessCalls, setpgidCalls, List.filterMap_append]
  obtain ⟨e1, e2, e3⟩ := e
  obtain ⟨w1, w2, w3⟩ := waitLoop_calls os.deliveries (sh.emit (Event.tcsetpgrp g))
  unfold waitForForegroundJob
  simp only
  split
  · exact ⟨e1, e2, e3⟩
  · split
    · rename_i sh2 heq
      rw [heq] at w1 w2 w3
      simp only at w1 w2 w3
      split
      · simp only [Shell.emit, addJobCalls, addProcessCalls, setpgidCalls,
          List.filterMap_append] at w1 w2 w3 e1 e2 e3 ⊢
        simp [w1, w2, w3, e1, e2, e3]
      · simp only [Shell.emit, unblockSIGCHLD, addJobCalls, addProcessCalls, setpgidCalls,
          List.filterMap_append] at w1 w2 w3 e1 e2 e3 ⊢
        simp [w1, w2, w3, e1, e2, e3]
    · rename_i sh2 o hne heq
      rw [heq] at w1 w2 w3
      simp only at w1 w2 w3
      rw [w1, w2, w3, e1, e2, e3]
      exact ⟨rfl, rfl, rfl⟩

theorem createJobSetup_calls (p : Pipeline) (os : OS) (sh : Shell) :
    addJobCalls (createJobSetup p os sh).1.log
      = addJobCalls sh.log ++ [(launchState p, nextJobNum sh.joblist)] ∧
    addProcessCalls (createJobSetup p os sh).1.log
      = addProcessCalls sh.log
        ++ p.commands.enum.map (fun x => (nextJobNum sh.joblist, os.fork x.1, x.2)) ∧
    setpgidCalls (createJobSetup p os sh).1.log
      = setpgidCalls sh.log ++ p.commands.enum.map (fun x => (os.fork x.1, os.fork 0)) := by
  simp only [createJobSetup]
  rw [(closePipes_calls _ _).2.1, (closePipes_calls _ _).2.2.1, (closePipes_calls _ _).2.2.2,
    (forkStages_calls _ _ _ _ _ _ _ _ _ _).1, (forkStages_calls _ _ _ _ _ _ _ _ _ _).2.1,
    (forkStages_calls _ _ _ _ _ _ _ _ _ _).2.2,
    (makePipes_calls _ _ _ _ _).2.1, (makePipes_calls _ _ _ _ _).2.2.1,
    (makePipes_calls _ _ _ _ _).2.2.2,
    (openOutput_calls _ _ _).2.1, (openOutput_calls _ _ _).2.2.1,
    (openOutput_calls _ _ _).2.2.2,
    (openInput_calls _ _ _).2.1, (openInput_calls _ _ _).2.2.1, (openInput_calls _ _ _).2.2.2]
  simp [blockSIGCHLD, addJob, addJobCalls, addProcessCalls, setpgidCalls,
    List.filterMap_append, List.enum]

theorem createJobSetup_joblist (p : Pipeline) (os : OS) (sh : Shell)
    (hN : 1 ≤ p.commands.length) (h0 : os.fork 0 ≠ 0) :
    (createJobSetup p os sh).1.joblist
      = sh.joblist ++ [{ num := nextJobNum sh.joblist, state := launchState p,
                         groupID := os.fork 0,
                         processes := p.commands.enum.map (stageProcess os) }] := by
  rcases hcs : p.commands with _ | ⟨c, cs⟩
  · rw [hcs] at hN
    simp at hN
  · simp only [createJobSetup, hcs, forkStages, addJob, blockSIGCHLD]
    rw [(closePipes_calls _ _).1]
    have hfresh := nextJobNum_fresh sh.joblist
    rw [forkStages_joblist os _ _ _ _ (nextJobNum sh.joblist) cs _ _ _ sh.joblist
      (({ num := nextJobNum sh.joblist, state := launchState p, groupID := 0,
          processes := [] } : STSHJob).addProcess
        { pid := os.fork 0, command := c, state := STSHProcessState.kRunning }) rfl]
    · simp [STSHJob.addProcess, List.enum, List.enumFrom, stageProcess]
    · simp only
      rw [(makePipes_calls _ _ _ _ _).1, (openOutput_calls _ _ _).1, (openInput_calls _ _ _).1]
      exact modifyJob_last sh.joblist
        { num := nextJobNum sh.joblist, state := launchState p, groupID := 0, processes := [] }
        _ hfresh
    · exact hfresh
    · simpa [STSHJob.addProcess] using h0

/-- C3: when the forks of an N-stage pipeline succeed, createJob calls addJob
exactly once, adds to that job exactly the N forked pids, in stage order and
each with the command of its stage, and calls setpgid(p_i, p_0) for every
stage; when the forks are done the job list holds one more job, whose group
id is the pid of the first stage and whose processes are these N. -/
theorem createJob_one_job_all_stages (p : Pipeline) (os : OS) (sh : Shell)
    (hN : 1 ≤ p.commands.length) (hfork : ∀ i, i < p.commands.length → 0 < os.fork i) :
    addJobCalls (createJob p os sh).1.log
      = addJobCalls sh.log ++ [(launchState p, nextJobNum sh.joblist)] ∧
    addProcessCalls (createJob p os sh).1.log
      = addProcessCalls sh.log
        ++ p.commands.enum.map (fun x => (nextJobNum sh.joblist, os.fork x.1, x.2)) ∧
    setpgidCalls (createJob p os sh).1.log
      = setpgidCalls sh.log ++ p.commands.enum.map (fun x => (os.fork x.1, os.fork 0)) ∧
    (createJobSetup p os sh).1.joblist
      = sh.joblist ++ [{ num := nextJobNum sh.joblist, state := launchState p,
                         groupID := os.fork 0,
                         processes := p.commands.enum.map (stageProcess os) }] ∧
    (p.background = true →
      (createJob p os sh).1.joblist = (createJobSetup p os sh).1.joblist) := by
  obtain ⟨s1, s2, s3⟩ := createJobSetup_calls p os sh
  have h0 : os.fork 0 ≠ 0 := by
    have hpos := hfork 0 (by omega)
    intro hz
    rw [hz] at hpos
    exact lt_irrefl _ hpos
  refine ⟨?_, ?_, ?_, createJobSetup_joblist p os sh hN h0, ?_⟩
  · unfold createJob
    simp only
    split
    · rw [(waitForForegroundJob_calls _ _ _).1, s1]
    · simpa [unblockSIGCHLD, addJobCalls, List.filterMap_append] using s1
  · unfold createJob
    simp only
    split
    · rw [(waitForForegroundJob_calls _ _ _).2.1, s2]
    · simpa [unblockSIGCHLD, addProcessCalls, List.filterMap_append] using s2
  · unfold createJob
    simp only
    split
    · rw [(waitForForegroundJob_calls _ _ _).2.2, s3]
    · simpa [unblockSIGCHLD, setpgidCalls, List.filterMap_append] using s3
  · intro hb
    simp [createJob, launchState, hb, unblockSIGCHLD]

/-! ### The prompt is reached without a foreground job -/

theorem hasForegroundJob_modifyJob (jl : STSHJobList) (num : Nat) (f : STSHJob → STSHJob)
    (hf : ∀ j, (f j).state = j.state) :
    hasForegroundJob (modifyJob jl num f) = hasForegroundJob jl := by
  induction jl with
  | nil => rfl
  | cons j js ih =>
    simp only [hasForegroundJob, modifyJob, List.map_cons, List.any_cons] at ih ⊢
    rw [ih]
    by_cases hj : (j.num == num) = true
    · simp [hj, hf]
    · simp [hj]

theorem hasForegroundJob_setProcessState (pid : Pid) (st : STSHProcessState)
    (jl : STSHJobList) :
    hasForegroundJob (setProcessState pid st jl) = hasForegroundJob jl := by
  induction jl with
  | nil => rfl
  | cons j js ih =>
    by_cases hj : j.containsProcess pid = true
    · simp [setProcessState, hj, hasForegroundJob, STSHJob.setProcessState]
    · simp only [hasForegroundJob, List.any_cons] at ih ⊢
      simp [setProcessState, hj, ih]

theorem synchronize_clear (jl : STSHJobList) (num : Nat)
    (h : hasForegroundJob jl = false) : hasForegroundJob (synchronize jl num) = false := by
  unfold synchronize
  split
  · exact h
  · split
    · simp only [hasForegroundJob, List.any_eq_false, List.mem_filter] at h ⊢
      intro j hj
      exact h j hj.1
    · split
      · simp only [hasForegroundJob, modifyJob, List.any_eq_false, List.mem_map] at h ⊢
        rintro j ⟨j0, hj0, rfl⟩
        by_cases hn : (j0.num == num) = true
        · simp [hn]
        · simpa [hn] using h j0 hj0
      · exact h

theorem reapProcess_clear (reports : List (Pid × Nat)) (jl : STSHJobList)
    (h : hasForegroundJob jl = false) :
    hasForegroundJob (reapProcess reports jl).1 = false := by
  induction reports generalizing jl with
  | nil => exact h
  | cons r rest ih =>
    obtain ⟨pid, status⟩ := r
    unfold reapProcess
    split
    · exact h
    · split
      · exact ih _ (synchronize_clear _ _ (by rw [hasForegroundJob_setProcessState]; exact h))
      · split
        · exact ih _ (synchronize_clear _ _ (by rw [hasForegroundJob_setProcessState]; exact h))
        · split
          · exact ih _
              (synchronize_clear _ _ (by rw [hasForegroundJob_setProcessState]; exact h))
          · exact h

theorem deliver_clear (d : Delivery) (sh : Shell) (h : hasForegroundJob sh.joblist = false) :
    hasForegroundJob (deliver d sh).1.joblist = false := by
  cases d with
  | sigchld reports => exact reapProcess_clear reports sh.joblist h
  | sigint => simp [deliver, killForegroundJob, h]
  | sigtstp => simp [deliver, stopForegroundJob, h]

theorem waitLoop_returned (ds : List Delivery) (sh : Shell)
    (h : (waitLoop ds sh).2 = Outcome.returned) :
    hasForegroundJob (waitLoop ds sh).1.joblist = false := by
  induction ds generalizing sh with
  | nil =>
    unfold waitLoop at h ⊢
    split
    · rename_i hfg
      simp [hfg] at h
    · rename_i hfg
      simpa using hfg
  | cons d ds ih =>
    unfold waitLoop at h ⊢
    split
    · rename_i hfg
      simp only [hfg, if_true] at h
      split
      · rename_i sh1 heq
        rw [heq] at h
        exact ih sh1 h
      · rename_i sh1 o hne heq
        rw [heq] at h
        cases o with
        | returned => exact absurd rfl hne
        | threw msg => cases h
        | lookupFailed => cases h
        | suspended => cases h
        | exited => cases h
    · rename_i hfg
      simpa using hfg

theorem waitForForegroundJob_returned (g : Pid) (os : OS) (sh : Shell)
    (h : (waitForForegroundJob g os sh).2 = Outcome.returned) :
    hasForegroundJob (waitForForegroundJob g os sh).1.joblist = false := by
  unfold waitForForegroundJob at h ⊢
  simp only at h ⊢
  split
  · rename_i hf
    simp [hf] at h
  · rename_i hf
    simp only [hf, if_false] at h
    have hw := waitLoop_returned os.deliveries (sh.emit (Event.tcsetpgrp g))
    rcases hd : waitLoop os.deliveries (sh.emit (Event.tcsetpgrp g)) with ⟨sh2, o⟩
    rw [hd] at h hw
    cases o with
    | returned =>
      simp only at h ⊢
      have hc := hw rfl
      split <;> simpa [Shell.emit, unblockSIGCHLD] using hc
    | threw msg => cases h
    | lookupFailed => cases h
    | suspended => cases h
    | exited => cases h

theorem forkStages_hasForegroundJob (os : OS) (n : Nat) (input output : Fd)
    (pipes : List (Fd × Fd)) (num : Nat) (cs : List Command) (i : Nat) (g : Pid)
    (sh : Shell) :
    hasForegroundJob (forkStages os n input output pipes num cs i g sh).1.joblist
      = hasForegroundJob sh.joblist := by
  induction cs generalizing i g sh with
  | nil => rfl
  | cons c cs ih =>
    simp only [forkStages]
    rw [ih]
    exact hasForegroundJob_modifyJob _ _ _ (fun _ => rfl)

theorem createJob_returned (p : Pipeline) (os : OS) (sh : Shell)
    (h : hasForegroundJob sh.joblist = false)
    (hr : (createJob p os sh).2 = Outcome.returned) :
    hasForegroundJob (createJob p os sh).1.joblist = false := by
  unfold createJob at hr ⊢
  simp only at hr ⊢
  split
  · rename_i hfg
    rw [if_pos hfg] at hr
    exact waitForForegroundJob_returned _ _ _ hr
  · rename_i hfg
    have hb : launchState p = STSHJobState.kBackground := by
      cases hs : launchState p
      · exact absurd hs hfg
      · rfl
    simp only [unblockSIGCHLD, createJobSetup]
    rw [(closePipes_calls _ _).1, forkStages_hasForegroundJob, (makePipes_calls _ _ _ _ _).1,
      (openOutput_calls _ _ _).1, (openInput_calls _ _ _).1]
    simp only [blockSIGCHLD, addJob, hb]
    simp only [hasForegroundJob, List.any_append] at h ⊢
    rw [h]
    rfl

theorem continueJobBackground_joblist (parseNumber : Option String → Option Nat)
    (c : Command) (sh : Shell) :
    (continueJobBackground parseNumber c sh).1.joblist = sh.joblist := by
  unfold continueJobBackground
  split
  · rfl
  · split
    · rfl
    · split
      · rfl
      · split
        · split
          · rfl
          · split <;> rfl
        · rfl

theorem slayProcess_joblist (parseNumber : Option String → Option Nat)
    (c : Command) (sh : Shell) :
    (slayProcess parseNumber c sh).1.joblist = sh.joblist := by
  unfold slayProcess
  split <;> rfl

theorem haltProcess_joblist (parseNumber : Option String → Option Nat)
    (c : Command) (sh : Shell) :
    (haltProcess parseNumber c sh).1.joblist = sh.joblist := by
  unfold haltProcess
  split
  · rfl
  · split
    · rfl
    · split <;> rfl

theorem continueProcess_joblist (parseNumber : Option String → Option Nat)
    (c : Command) (sh : Shell) :
    (continueProcess parseNumber c sh).1.joblist = sh.joblist := by
  unfold continueProcess
  split
  · rfl
  · split
    · rfl
    · split <;> rfl

theorem bringJobForeground_returned (parseNumber : Option String → Option Nat)
    (c : Command) (os : OS) (sh : Shell) (h : hasForegroundJob sh.joblist = false)
    (hr : (bringJobForeground parseNumber c os sh).2 = Outcome.returned) :
    hasForegroundJob (bringJobForeground parseNumber c os sh).1.joblist = false := by
  unfold bringJobForeground at hr ⊢
  split
  · exact h
  · split
    · exact h
    · split
      · exact h
      · simp only at hr ⊢
        split
        · exact h
        · split
          · rename_i hz hb
            rw [if_neg ‹¬ (2 ≤ c.tokens.length)›] at hr
            simp only [*, if_false, if_true] at hr
            exact waitForForegroundJob_returned _ _ _ hr
          · exact h

/-- When the shell sits at the prompt without a foreground job, a round of
the loop of `main` that ends normally (no exception, no exit) brings it back
to the prompt without a foreground job. -/
theorem mainStep_returned (parseNumber : Option String → Option Nat) (st : Step)
    (sh : Shell) (h : hasForegroundJob sh.joblist = false)
    (hr : (mainStep parseNumber st sh).2 = Outcome.returned) :
    hasForegroundJob (mainStep parseNumber st sh).1.joblist = false := by
  cases st with
  | line p os =>
    unfold mainStep at hr ⊢
    simp only at hr ⊢
    rcases hb : handleBuiltin parseNumber p os sh with _ | r
    · rw [hb] at hr
      exact createJob_returned p os sh h hr
    · rw [hb] at hr
      simp only at hr ⊢
      unfold handleBuiltin at hb
      split at hb
      · cases hb
      · split at hb
        · cases hb; exact h
        · split at hb
          · cases hb; exact bringJobForeground_returned _ _ _ _ h hr
          · split at hb
            · cases hb; rw [continueJobBackground_joblist]; exact h
            · split at hb
              · cases hb; rw [slayProcess_joblist]; exact h
              · split at hb
                · cases hb; rw [haltProcess_joblist]; exact h
                · split at hb
                  · cases hb; rw [continueProcess_joblist]; exact h
                  · split at hb
                    · cases hb; exact h
                    · cases hb
  | signal d =>
    cases d with
    | sigchld reports =>
      unfold mainStep
      simp only
      split
      · exact h
      · exact deliver_clear _ sh h
    | sigint => exact deliver_clear _ sh h
    | sigtstp => exact deliver_clear _ sh h

/-- An instance of C3: the three stages of `a | b | c` get pids 100, 101, 102,
all of them are put into group 100 and all are recorded on job 1. -/
theorem createJob_one_job_all_stages_witness :
    setpgidCalls (createJob threeStages calmOS Shell.start).1.log
      = [(100, 100), (101, 100), (102, 100)] ∧
    (createJobSetup threeStages calmOS Shell.start).1.joblist
      = [{ num := 1, state := STSHJobState.kBackground, groupID := 100,
           processes := [
             { pid := 100, command := plain "a", state := STSHProcessState.kRunning },
             { pid := 101, command := plain "b", state := STSHProcessState.kRunning },
             { pid := 102, command := plain "c", state := STSHProcessState.kRunning }] }] :=
  have h := createJob_one_job_all_stages threeStages calmOS Shell.start (by decide)
    (by intro i _; show (0 : Int) < 100 + (i : Int); omega)
  ⟨h.2.2.1, h.2.2.2.1⟩

/-- C1 fails on the code: in `a | b | c` the child of the middle stage `b`
duplicates the read end of the first pipe (10) onto stdin and nothing onto
stdout, where the claim wants the write end of the second pipe (13). -/
theorem createJob_middle_stage_stdout_unpiped :
    forkedChildren (createJob threeStages calmOS Shell.start).1.log
      = [(100, [ChildAction.dup2 11 1, ChildAction.unblockSIGCHLD,
                ChildAction.exec (plain "a")]),
         (101, [ChildAction.dup2 10 0, ChildAction.unblockSIGCHLD,
                ChildAction.exec (plain "b")]),
         (102, [ChildAction.dup2 12 0, ChildAction.unblockSIGCHLD,
                ChildAction.exec (plain "c")])] := by
  decide

/-- C2 fails on the code: for `cmd < in.txt > out.txt`, with in.txt opened as
descriptor 3 and out.txt as descriptor 4, the child duplicates 3 onto stdin and
leaves stdout alone. -/
theorem createJob_single_stage_output_unwired :
    forkedChildren (createJob redirected calmOS Shell.start).1.log
      = [(100, [ChildAction.dup2 3 0, ChildAction.unblockSIGCHLD,
                ChildAction.exec (plain "cmd")])] := by
  decide

/-- C9 fails on the code: after `cmd < in.txt > out.txt &` has been launched
the descriptors 3 and 4 of the two redirection files are still open in the
shell, which held no descriptor before. -/
theorem createJob_leaves_redirections_open :
    Shell.start.openFds = [] ∧
    (createJob redirected calmOS Shell.start).2 = Outcome.returned ∧
    (createJob redirected calmOS Shell.start).1.openFds = [3, 4] := by
  decide

/-- C4 fails on the code: `tcsetpgrp` fails for the foreground job `a`, the
loop of `main` catches the exception and reads the next line `b`; job 1 is
still Foreground when job 2 is added as Foreground. -/
theorem two_foreground_jobs_after_terminal_error :
    (mainStep parseDecimal (Step.line (foregroundLine "a") (noTerminalOS 100)) Shell.start).2
      = Outcome.threw "Error while calling tcsetpgrp." ∧
    foregroundCount
      (mainStep parseDecimal (Step.line (foregroundLine "a") (noTerminalOS 100))
        Shell.start).1.joblist = 1 ∧
    foregroundCount
      (mainRun parseDecimal
        [Step.line (foregroundLine "a") (noTerminalOS 100),
         Step.line (foregroundLine "b") (noTerminalOS 200)] Shell.start).joblist = 2 := by
  decide

/-! ### The log is only ever appended to -/

theorem createJob_eq (p : Pipeline) (os : OS) (sh : Shell) :
    createJob p os sh
      = createJobAfterOpen p os (nextJobNum sh.joblist)
          (openInput p os (createJobAdded p sh)).2
          (openOutput p os (openInput p os (createJobAdded p sh)).1).2
          (openOutput p os (openInput p os (createJobAdded p sh)).1).1 := by
  simp [createJob, createJobSetup, createJobAfterOpen, createJobAdded, blockSIGCHLD, addJob]

theorem precededBy_emit (l : List Event) (sh : Shell) (e : Event) :
    (sh.precededBy l).emit e = (sh.emit e).precededBy l := by
  simp [Shell.precededBy, Shell.emit]

theorem precededBy_close (l : List Event) (sh : Shell) (fd : Fd) :
    close (sh.precededBy l) fd = (close sh fd).precededBy l := by
  simp [Shell.precededBy, close]

theorem precededBy_unblock (l : List Event) (sh : Shell) :
    unblockSIGCHLD (sh.precededBy l) = (unblockSIGCHLD sh).precededBy l := by
  simp [Shell.precededBy, unblockSIGCHLD]

theorem precededBy_closePipes (l : List Event) (pipes : List (Fd × Fd)) (sh : Shell) :
    closePipes pipes (sh.precededBy l) = (closePipes pipes sh).precededBy l := by
  induction pipes generalizing sh with
  | nil => rfl
  | cons fds rest ih => simp only [closePipes, precededBy_close, ih]

theorem precededBy_openOutput (l : List Event) (p : Pipeline) (os : OS) (sh : Shell) :
    openOutput p os (sh.precededBy l)
      = ((openOutput p os sh).1.precededBy l, (openOutput p os sh).2) := by
  unfold openOutput
  split
  · rfl
  · split <;> simp [Shell.precededBy, Shell.emit]

theorem precededBy_makePipes (l : List Event) (os : OS) (k i : Nat) (pipes : List (Fd × Fd))
    (sh : Shell) :
    makePipes os k i pipes (sh.precededBy l)
      = ((makePipes os k i pipes sh).1.precededBy l, (makePipes os k i pipes sh).2) := by
  induction k generalizing i pipes sh with
  | zero => rfl
  | succ k ih =>
    simp only [makePipes]
    rw [← ih]
    simp [Shell.precededBy]

theorem precededBy_forkStages (l : List Event) (os : OS) (n : Nat) (input output : Fd)
    (pipes : List (Fd × Fd)) (num : Nat) (cs : List Command) (i : Nat) (g : Pid)
    (sh : Shell) :
    forkStages os n input output pipes num cs i g (sh.precededBy l)
      = ((forkStages os n input output pipes num cs i g sh).1.precededBy l,
         (forkStages os n input output pipes num cs i g sh).2) := by
  induction cs generalizing i g sh with
  | nil => rfl
  | cons c cs ih =>
    simp only [forkStages]
    rw [← ih]
    simp [Shell.precededBy]

theorem precededBy_deliver (l : List Event) (d : Delivery) (sh : Shell) :
    deliver d (sh.precededBy l) = ((deliver d sh).1.precededBy l, (deliver d sh).2) := by
  cases d with
  | sigchld reports => simp [deliver, Shell.precededBy]
  | sigint =>
    simp only [deliver, killForegroundJob, Shell.precededBy, kill, Shell.emit]
    split
    · rfl
    · split <;> simp
  | sigtstp =>
    simp only [deliver, stopForegroundJob, Shell.precededBy, kill, Shell.emit]
    split
    · rfl
    · split <;> simp

theorem precededBy_waitLoop (l : List Event) (ds : List Delivery) (sh : Shell) :
    waitLoop ds (sh.precededBy l)
      = ((waitLoop ds sh).1.precededBy l, (waitLoop ds sh).2) := by
  induction ds generalizing sh with
  | nil =>
    simp only [waitLoop, precededBy_emit]
    have : (sh.precededBy l).joblist = sh.joblist := rfl
    rw [this]
    split <;> rfl
  | cons d ds ih =>
    simp only [waitLoop, precededBy_emit, precededBy_deliver]
    have : (sh.precededBy l).joblist = sh.joblist := rfl
    rw [this]
    split
    · rcases hd : deliver d (sh.emit Event.sigsuspend) with ⟨sh1, o⟩
      cases o <;> simp [ih]
    · rfl

theorem precededBy_waitForForegroundJob (l : List Event) (g : Pid) (os : OS) (sh : Shell) :
    waitForForegroundJob g os (sh.precededBy l)
      = ((waitForForegroundJob g os sh).1.precededBy l, (waitForForegroundJob g os sh).2) := by
  simp only [waitForForegroundJob, precededBy_emit, precededBy_waitLoop]
  split
  · rfl
  · rcases hw : waitLoop os.deliveries (sh.emit (Event.tcsetpgrp g)) with ⟨sh2, o⟩
    cases o <;> simp only [precededBy_emit, precededBy_unblock]
    split <;> rfl

theorem precededBy_createJobAfterOpen (l : List Event) (p : Pipeline) (os : OS) (num : Nat)
    (input output : Fd) (sh : Shell) :
    createJobAfterOpen p os num input output (sh.precededBy l)
      = ((createJobAfterOpen p os num input output sh).1.precededBy l,
         (createJobAfterOpen p os num input output sh).2) := by
  simp only [createJobAfterOpen, precededBy_makePipes, precededBy_forkStages,
    precededBy_closePipes, precededBy_waitForForegroundJob, precededBy_unblock]
  split <;> rfl

theorem precededBy_self (sh : Shell) :
    ({ sh with log := [] } : Shell).precededBy sh.log = sh := by
  simp [Shell.precededBy]

theorem precededBy_self_emit (sh : Shell) (e : Event) :
    ({ sh with log := [] } : Shell).precededBy (sh.log ++ [e]) = sh.emit e := by
  simp [Shell.precededBy, Shell.emit]

theorem emit_then_run (F : Shell → Shell × Outcome)
    (hF : ∀ l sh, F (Shell.precededBy l sh) = ((F sh).1.precededBy l, (F sh).2))
    (sh : Shell) (e : Event) :
    ∃ post,
      (F (sh.emit e)).1.log = sh.log ++ e :: post ∧
      F sh = ({ (F (sh.emit e)).1 with log := sh.log ++ post }, (F (sh.emit e)).2) := by
  refine ⟨(F { sh with log := [] }).1.log, ?_, ?_⟩
  · rw [← precededBy_self_emit, hF]
    simp [Shell.precededBy]
  · rw [← precededBy_self_emit sh e]
    conv_lhs => rw [← precededBy_self sh]
    rw [hF, hF]
    simp [Shell.precededBy]

/-- C8 as stated fails: `cmd < in.txt > out.txt &` with an `open` of in.txt
that fails.  createJob returns normally and the child of the only stage is
forked, with stdin left alone. -/
theorem createJob_failed_open_still_forks :
    (createJob redirected { calmOS with openInput := none } Shell.start).2
      = Outcome.returned ∧
    forkedChildren (createJob redirected { calmOS with openInput := none } Shell.start).1.log
      = [(100, [ChildAction.dup2 4 1, ChildAction.unblockSIGCHLD,
                ChildAction.exec (plain "cmd")])] := by
  decide

/-- C8, amended: an `open` that fails raises no error in createJob.  The run
is the run of the same pipeline without that redirection, apart from the
failed `open` call itself: the same job, the same forks with the same wiring
in every child, the same descriptors, the same outcome. -/
theorem createJob_ignores_failed_open (p : Pipeline) (os : OS) (sh : Shell) :
    (p.input ≠ "" → os.openInput = none →
      ∃ pre post,
        (createJob p os sh).1.log = pre ++ Event.openFile p.input (-1) :: post ∧
        createJob { p with input := "" } os sh
          = ({ (createJob p os sh).1 with log := pre ++ post }, (createJob p os sh).2)) ∧
    (p.output ≠ "" → os.openOutput = none →
      ∃ pre post,
        (createJob p os sh).1.log = pre ++ Event.openFile p.output (-1) :: post ∧
        createJob { p with output := "" } os sh
          = ({ (createJob p os sh).1 with log := pre ++ post }, (createJob p os sh).2)) ∧
    (p.background = true → (createJob p os sh).2 = Outcome.returned) := by
  refine ⟨?_, ?_, ?_⟩
  · intro hne hnone
    have hin : openInput p os (createJobAdded p sh)
        = ((createJobAdded p sh).emit (Event.openFile p.input (-1)), -1) := by
      simp [openInput, hne, hnone]
    have hin0 : openInput { p with input := "" } os (createJobAdded p sh)
        = (createJobAdded p sh, -1) := by
      simp [openInput]
    have hout : ∀ s, openOutput { p with input := "" } os s = openOutput p os s :=
      fun _ => rfl
    have hadd : createJobAdded { p with input := "" } sh = createJobAdded p sh := rfl
    have htail : ∀ n i o s, createJobAfterOpen { p with input := "" } os n i o s
        = createJobAfterOpen p os n i o s := fun _ _ _ _ => rfl
    rw [createJob_eq, createJob_eq, hadd, hin, hin0, hout, htail]
    simp only
    obtain ⟨post, h1, h2⟩ := emit_then_run
      (fun s => createJobAfterOpen p os (nextJobNum sh.joblist) (-1)
        (openOutput p os s).2 (openOutput p os s).1)
      (by
        intro l s
        simp only [precededBy_openOutput, precededBy_createJobAfterOpen])
      (createJobAdded p sh) (Event.openFile p.input (-1))
    exact ⟨_, post, h1, h2⟩
  · intro hne hnone
    have hout : openOutput p os (openInput p os (createJobAdded p sh)).1
        = ((openInput p os (createJobAdded p sh)).1.emit (Event.openFile p.output (-1)), -1) := by
      simp [openOutput, hne, hnone]
    have hout0 : openOutput { p with output := "" } os (openInput p os (createJobAdded p sh)).1
        = ((openInput p os (createJobAdded p sh)).1, -1) := by
      simp [openOutput]
    have hin : ∀ s, openInput { p with output := "" } os s = openInput p os s :=
      fun _ => rfl
    have hadd : createJobAdded { p with output := "" } sh = createJobAdded p sh := rfl
    have htail : ∀ n i o s, createJobAfterOpen { p with output := "" } os n i o s
        = createJobAfterOpen p os n i o s := fun _ _ _ _ => rfl
    rw [createJob_eq, createJob_eq, hadd, hin, hout, hout0, htail]
    simp only
    obtain ⟨post, h1, h2⟩ := emit_then_run
      (fun s => createJobAfterOpen p os (nextJobNum sh.joblist)
        (openInput p os (createJobAdded p sh)).2 (-1) s)
      (by
        intro l s
        simp only [precededBy_createJobAfterOpen])
      (openInput p os (createJobAdded p sh)).1 (Event.openFile p.output (-1))
    exact ⟨_, post, h1, h2⟩
  · intro hb
    simp [createJob, launchState, hb]

/-- An instance of the amended C8: with in.txt unreadable, launching
`cmd < in.txt > out.txt &` logs the failed `open` and otherwise does what
launching `cmd > out.txt &` does. -/
theorem createJob_ignores_failed_open_witness :
    ∃ pre post,
      (createJob redirected { calmOS with openInput := none } Shell.start).1.log
        = pre ++ Event.openFile "in.txt" (-1) :: post ∧
      createJob { redirected with input := "" } { calmOS with openInput := none } Shell.start
        = ({ (createJob redirected { calmOS with openInput := none } Shell.start).1 with
              log := pre ++ post },
           (createJob redirected { calmOS with openInput := none } Shell.start).2) :=
  (createJob_ignores_failed_open redirected { calmOS with openInput := none } Shell.start).1
    (by decide) rfl

end Stsh
